import Mathlib

/-!
# aws-janitor/resources/launch_templates.go

A shallow embedding of the launch-template plugin of the AWS janitor:
`LaunchTemplates.MarkAndSweep`, `LaunchTemplates.ListAll`, `launchTemplate.ARN`
and `launchTemplate.ResourceKey`.

The Go code talks to three collaborators that are not part of the file: the
tracking `Set` (its `Mark` method), the EC2 client (`DescribeLaunchTemplatesPages`,
`DeleteLaunchTemplate`) and the logger.  The collaborators are oracles passed as
parameters; every call made to one of them is recorded, in order, in a list of
`Call` events, so that statements about "which calls are issued, and in which
order" are statements about that list.

A nil-pointer dereference (`*lt.LaunchTemplateId`, `*lt.LaunchTemplateName`) is a
Go panic; it is modelled by the `Except.error` branch of the outcome.
-/

namespace resources

/-- A `time.Time` value, as a number of ticks. -/
abbrev Time := Nat

/-- The Go runtime panic raised by dereferencing a nil pointer. -/
inductive Panic where
  | nilDereference
deriving DecidableEq, Repr

/-- A Go `error` value: either an opaque error with its message, or an error
wrapped by `errors.Wrapf` of `github.com/pkg/errors` (message and cause). -/
inductive GoError where
  | base (msg : String)
  | withMessage (msg : String) (cause : GoError)
deriving DecidableEq, Repr

/-- The method `Error()` of an error: `withMessage` prints `msg + ": " + cause.Error()`. -/
def GoError.Error : GoError → String
  | .base msg => msg
  | .withMessage msg cause => msg ++ ": " ++ cause.Error

/-- The function `errors.Cause` on one layer: the wrapped error, if any. -/
def GoError.Cause : GoError → Option GoError
  | .base _ => none
  | .withMessage _ cause => some cause

/-- The function `errors.Wrapf(err, format, args...)` of `github.com/pkg/errors`,
applied to the already formatted message: it returns nil when `err` is nil. -/
def Wrapf (err : Option GoError) (msg : String) : Option GoError :=
  match err with
  | none => none
  | some e => some (.withMessage msg e)

/-- Modelled from the spec: the run options (`Options` is declared elsewhere in the
package); the fields read by this file are `Account`, `Region` and `DryRun`. -/
structure Options where
  Account : String
  Region : String
  DryRun : Bool
deriving DecidableEq, Repr

/-- The struct `ec2.Tag` of the SDK. -/
structure ec2Tag where
  Key : Option String
  Value : Option String
deriving DecidableEq, Repr

/-- The struct `ec2.LaunchTemplate` of the SDK, with the fields this file reads.
Every field is a pointer in Go, hence an `Option` here. -/
structure ec2LaunchTemplate where
  CreateTime : Option Time
  LaunchTemplateId : Option String
  LaunchTemplateName : Option String
  Tags : List ec2Tag
deriving DecidableEq, Repr

/-- The struct `ec2.DescribeLaunchTemplatesOutput`: one page of the listing.  The
elements of `LaunchTemplates` are the structs behind the pointers of the Go slice, which
the SDK fills with non-nil pointers. -/
structure DescribeLaunchTemplatesOutput where
  LaunchTemplates : List ec2LaunchTemplate
deriving DecidableEq, Repr

/-- The struct `ec2.DeleteLaunchTemplateInput`; the code sets `LaunchTemplateId` only. -/
structure DeleteLaunchTemplateInput where
  LaunchTemplateId : Option String
  LaunchTemplateName : Option String
deriving DecidableEq, Repr

/-- The struct `launchTemplate` (lines 97-102). -/
structure launchTemplate where
  Account : String
  Region : String
  ID : String
  Name : String
deriving DecidableEq, Repr

/-- The method `launchTemplate.ARN` (lines 104-106):
`fmt.Sprintf("arn:aws:ec2:%s:%s:launch-template/%s", lt.Region, lt.Account, lt.ID)`. -/
def launchTemplate.ARN (lt : launchTemplate) : String :=
  "arn:aws:ec2:" ++ lt.Region ++ ":" ++ lt.Account ++ ":launch-template/" ++ lt.ID

/-- The method `launchTemplate.ResourceKey` (lines 108-110). -/
def launchTemplate.ResourceKey (lt : launchTemplate) : String :=
  lt.ARN

/-- One observable call made by the plugin to a collaborator, in the order issued.
`fetch i` is the request for page `i` made by `DescribeLaunchTemplatesPages`;
`mark` is a call `set.Mark(opts, l, created, tags)` together with the value it
returned; `warnDeleting` is the `logger.Warningf` of line 49 and `warnDeleteFailed`
the one of line 67, each with its formatted message; `delete` is a call
`svc.DeleteLaunchTemplate(req)`. -/
inductive Call (τ : Type) where
  | fetch (page : Nat)
  | mark (opts : Options) (l : launchTemplate) (created : Option Time) (tags : τ) (result : Bool)
  | warnDeleting (msg : String)
  | warnDeleteFailed (msg : String)
  | delete (req : DeleteLaunchTemplateInput)

/-- The effect of running a piece of code: the calls it issued, the values of the
variables it captured afterwards, and either its return value or a panic. -/
structure Step (τ : Type) (S : Type) (α : Type) where
  calls : List (Call τ)
  vars : S
  out : Except Panic α

/-- What the EC2 endpoint answers to a paged listing: the pages it serves, and the
error of the request after the last served page, if that request fails.  (A listing that
succeeds serves at least one page, possibly empty.) -/
structure Listing where
  pages : List DescribeLaunchTemplatesOutput
  err : Option GoError
deriving DecidableEq, Repr

/-- The page loop of the SDK (`for p.Next() { if !fn(p.Page(), !p.HasNextPage()) { break } };
return p.Err()`), from page number `i` on: each served page is requested and handed to
`fn` with the last-page flag; a `false` from `fn` stops the loop with a nil error; a
failing request stops it with that error; a panic in `fn` propagates. -/
def pagesFrom {τ S : Type}
    (fn : DescribeLaunchTemplatesOutput → Bool → S → Step τ S Bool) (err : Option GoError) :
    Nat → List DescribeLaunchTemplatesOutput → S → Step τ S (Option GoError)
  | i, [], v =>
    match err with
    | none => ⟨[], v, .ok none⟩
    | some e => ⟨[.fetch i], v, .ok (some e)⟩
  | i, page :: rest, v =>
    let r := fn page (rest.isEmpty && err.isNone) v
    match r.out with
    | .error p => ⟨.fetch i :: r.calls, r.vars, .error p⟩
    | .ok false => ⟨.fetch i :: r.calls, r.vars, .ok none⟩
    | .ok true =>
      let r2 := pagesFrom fn err (i + 1) rest r.vars
      ⟨.fetch i :: (r.calls ++ r2.calls), r2.vars, r2.out⟩

/-- The SDK method `DescribeLaunchTemplatesPages(input, fn)` against an endpoint that
answers with `listing`. -/
def DescribeLaunchTemplatesPages {τ S : Type} (listing : Listing)
    (fn : DescribeLaunchTemplatesOutput → Bool → S → Step τ S Bool) (v : S) :
    Step τ S (Option GoError) :=
  pagesFrom fn listing.err 0 listing.pages v

/-- The variables captured by `pageFunc` in `MarkAndSweep`: the tracking set behind
the pointer `set` and the slice `toDelete`. -/
structure SweepVars (σ : Type) where
  set : σ
  toDelete : List launchTemplate

/-- The body of `for _, lt := range page.LaunchTemplates` in `pageFunc` (lines 39-53),
followed by `return true` (line 54).  `Mark` is the method `Set.Mark` acting on the
state of the set; `fromEC2Tags` is the tag conversion of the package. -/
def pageFuncLoop {σ τ : Type}
    (Mark : σ → Options → launchTemplate → Option Time → τ → σ × Bool)
    (fromEC2Tags : List ec2Tag → τ) (opts : Options) :
    List ec2LaunchTemplate → SweepVars σ → Step τ (SweepVars σ) Bool
  | [], v => ⟨[], v, .ok true⟩
  | lt :: rest, v =>
    match lt.LaunchTemplateId with
    | none => ⟨[], v, .error .nilDereference⟩
    | some id =>
      match lt.LaunchTemplateName with
      | none => ⟨[], v, .error .nilDereference⟩
      | some name =>
        let l : launchTemplate :=
          { Account := opts.Account, Region := opts.Region, ID := id, Name := name }
        let tags := fromEC2Tags lt.Tags
        let m := Mark v.set opts l lt.CreateTime tags
        if !m.2 then
          let r := pageFuncLoop Mark fromEC2Tags opts rest { v with set := m.1 }
          { r with calls := .mark opts l lt.CreateTime tags m.2 :: r.calls }
        else
          let msg := l.ARN ++ ": deleting *ec2.LaunchTemplate: " ++ l.Name
          let r := pageFuncLoop Mark fromEC2Tags opts rest
            (if !opts.DryRun then { set := m.1, toDelete := v.toDelete ++ [l] }
             else { v with set := m.1 })
          { r with calls := .mark opts l lt.CreateTime tags m.2 :: .warnDeleting msg :: r.calls }

/-- The closure `pageFunc` of `MarkAndSweep` (lines 38-55); the last-page flag is ignored. -/
def pageFunc {σ τ : Type}
    (Mark : σ → Options → launchTemplate → Option Time → τ → σ × Bool)
    (fromEC2Tags : List ec2Tag → τ) (opts : Options)
    (page : DescribeLaunchTemplatesOutput) (_lastPage : Bool) (v : SweepVars σ) :
    Step τ (SweepVars σ) Bool :=
  pageFuncLoop Mark fromEC2Tags opts page.LaunchTemplates v

/-- The loop `for _, lt := range toDelete` (lines 61-69): one `DeleteLaunchTemplate`
request per element, and a warning when the request fails.  `Delete` is the EC2
endpoint acting on its own state `κ`.  Returns the calls issued and the final state. -/
def deleteLoop {κ τ : Type}
    (Delete : κ → DeleteLaunchTemplateInput → κ × Option GoError) :
    List launchTemplate → κ → List (Call τ) × κ
  | [], svc => ([], svc)
  | lt :: rest, svc =>
    let deleteReq : DeleteLaunchTemplateInput :=
      { LaunchTemplateId := some lt.ID, LaunchTemplateName := none }
    let d := Delete svc deleteReq
    let r := deleteLoop Delete rest d.1
    match d.2 with
    | some err =>
      (.delete deleteReq :: .warnDeleteFailed (lt.ARN ++ ": delete failed: " ++ err.Error) :: r.1,
        r.2)
    | none => (.delete deleteReq :: r.1, r.2)

/-- The result of a run of `MarkAndSweep`: all calls issued, the final states of the
set and of the endpoint, and the returned error (or a panic). -/
structure SweepResult (σ κ τ : Type) where
  calls : List (Call τ)
  set : σ
  svc : κ
  out : Except Panic (Option GoError)

/-- The call `svc.DescribeLaunchTemplatesPages(&ec2.DescribeLaunchTemplatesInput{}, pageFunc)`
of line 57, started with an empty `toDelete`. -/
def sweepListing {σ τ : Type}
    (Mark : σ → Options → launchTemplate → Option Time → τ → σ × Bool)
    (fromEC2Tags : List ec2Tag → τ) (listing : Listing) (opts : Options) (set : σ) :
    Step τ (SweepVars σ) (Option GoError) :=
  DescribeLaunchTemplatesPages listing (pageFunc Mark fromEC2Tags opts)
    { set := set, toDelete := [] }

/-- The method `LaunchTemplates.MarkAndSweep` (lines 32-72). -/
def MarkAndSweep {σ κ τ : Type}
    (Mark : σ → Options → launchTemplate → Option Time → τ → σ × Bool)
    (fromEC2Tags : List ec2Tag → τ)
    (Delete : κ → DeleteLaunchTemplateInput → κ × Option GoError)
    (listing : Listing) (svc : κ) (opts : Options) (set : σ) : SweepResult σ κ τ :=
  let r := sweepListing Mark fromEC2Tags listing opts set
  match r.out with
  | .error p => ⟨r.calls, r.vars.set, svc, .error p⟩
  | .ok (some err) => ⟨r.calls, r.vars.set, svc, .ok (some err)⟩
  | .ok none =>
    let d := deleteLoop Delete r.vars.toDelete svc
    ⟨r.calls ++ d.1, r.vars.set, d.2, .ok none⟩

/-- A Go `map[string]time.Time` assignment `m[k] = v`. -/
def mapAssign (m : List (String × Time)) (k : String) (v : Time) : List (String × Time) :=
  (k, v) :: m.filter (fun e => e.1 != k)

/-- Modelled from the spec: the tracking `Set` (declared elsewhere in the package), "a
mapping from Resource Identity to Tracked Entry"; `ListAll` writes its field
`firstSeen`, a map from ARN to time. -/
structure Set where
  firstSeen : List (String × Time)
deriving DecidableEq, Repr

/-- Modelled from the spec: the constructor `NewSet(ttl)` of the package, which returns a
pointer to a fresh `Set` with an empty `firstSeen` map. -/
def NewSet (_ttl : Nat) : Set :=
  { firstSeen := [] }

/-- The identities held by a set: the keys of `firstSeen`. -/
def Set.keys (s : Set) : List String :=
  s.firstSeen.map Prod.fst

/-- The variables of the callback of `ListAll`: the set behind the pointer `set`, and
the number of `time.Now()` calls made so far (the clock is an oracle). -/
structure ListVars where
  set : Set
  ticks : Nat

/-- The body of `for _, lt := range lts.LaunchTemplates` in the callback of `ListAll`
(lines 81-89). -/
def listAllLoop (opts : Options) (now : Time) :
    List ec2LaunchTemplate → Set → Set × Except Panic Unit
  | [], s => (s, .ok ())
  | lt :: rest, s =>
    match lt.LaunchTemplateId with
    | none => (s, .error .nilDereference)
    | some id =>
      match lt.LaunchTemplateName with
      | none => (s, .error .nilDereference)
      | some name =>
        let arn := launchTemplate.ARN
          { Account := opts.Account, Region := opts.Region, ID := id, Name := name }
        listAllLoop opts now rest { s with firstSeen := mapAssign s.firstSeen arn now }

/-- The callback of `ListAll` (lines 79-92): `now := time.Now()`, the loop, `return true`.
`timeNow n` is what the `n`-th call of `time.Now()` returns. -/
def listAllFunc {τ : Type} (timeNow : Nat → Time) (opts : Options)
    (lts : DescribeLaunchTemplatesOutput) (_isLast : Bool) (v : ListVars) :
    Step τ ListVars Bool :=
  let now := timeNow v.ticks
  let r := listAllLoop opts now lts.LaunchTemplates v.set
  match r.2 with
  | .error p => ⟨[], { set := r.1, ticks := v.ticks + 1 }, .error p⟩
  | .ok _ => ⟨[], { set := r.1, ticks := v.ticks + 1 }, .ok true⟩

/-- The result of a run of `ListAll`: the calls issued, the set built so far, and the
returned pair (a pointer to the set, nil or not, and the error), or a panic. -/
structure ListResult (τ : Type) where
  calls : List (Call τ)
  set : Set
  out : Except Panic (Option Set × Option GoError)

/-- The message of the `errors.Wrapf` of line 94:
`"couldn't list launch templates for %q in %q"`; `quote` is the `%q` verb of `fmt`. -/
def listAllMessage (quote : String → String) (opts : Options) : String :=
  "couldn't list launch templates for " ++ quote opts.Account ++ " in " ++ quote opts.Region

/-- The call `c.DescribeLaunchTemplatesPages(input, func ...)` of line 79, started with
the fresh set `NewSet(0)`. -/
def listAllListing {τ : Type} (timeNow : Nat → Time) (listing : Listing) (opts : Options) :
    Step τ ListVars (Option GoError) :=
  DescribeLaunchTemplatesPages listing (listAllFunc timeNow opts)
    { set := NewSet 0, ticks := 0 }

/-- The method `LaunchTemplates.ListAll` (lines 74-95). -/
def ListAll {τ : Type} (timeNow : Nat → Time) (quote : String → String)
    (listing : Listing) (opts : Options) : ListResult τ :=
  let r : Step τ ListVars (Option GoError) := listAllListing timeNow listing opts
  match r.out with
  | .error p => ⟨r.calls, r.vars.set, .error p⟩
  | .ok err => ⟨r.calls, r.vars.set, .ok (some r.vars.set, Wrapf err (listAllMessage quote opts))⟩

/-! ### Reading the list of calls -/

/-- A recorded `set.Mark` call. -/
structure MarkCall (τ : Type) where
  opts : Options
  resource : launchTemplate
  created : Option Time
  tags : τ
  result : Bool

/-- The `set.Mark` calls of a list of calls, in order. -/
def markCalls {τ : Type} (cs : List (Call τ)) : List (MarkCall τ) :=
  cs.filterMap fun c =>
    match c with
    | .mark o l t g b => some ⟨o, l, t, g, b⟩
    | _ => none

/-- The `DeleteLaunchTemplate` requests of a list of calls, in order. -/
def deleteRequests {τ : Type} (cs : List (Call τ)) : List DeleteLaunchTemplateInput :=
  cs.filterMap fun c =>
    match c with
    | .delete req => some req
    | _ => none

/-- The page numbers requested in a list of calls, in order. -/
def fetchedPages {τ : Type} (cs : List (Call τ)) : List Nat :=
  cs.filterMap fun c =>
    match c with
    | .fetch i => some i
    | _ => none

/-- The messages of the "delete failed" warnings of a list of calls, in order. -/
def deleteFailedWarnings {τ : Type} (cs : List (Call τ)) : List String :=
  cs.filterMap fun c =>
    match c with
    | .warnDeleteFailed msg => some msg
    | _ => none

/-- Whether a call is a `DeleteLaunchTemplate` request. -/
def Call.isDelete {τ : Type} : Call τ → Bool
  | .delete _ => true
  | _ => false

/-- Whether a call is a page request or a `set.Mark` call. -/
def Call.isFetchOrMark {τ : Type} : Call τ → Bool
  | .fetch _ => true
  | .mark _ _ _ _ _ => true
  | _ => false

/-- All templates served by a listing, page after page. -/
def Listing.templates (listing : Listing) : List ec2LaunchTemplate :=
  listing.pages.flatMap fun p => p.LaunchTemplates

/-- Whether a template has both pointers that the code dereferences. -/
def ec2LaunchTemplate.hasIdAndName (lt : ec2LaunchTemplate) : Bool :=
  lt.LaunchTemplateId.isSome && lt.LaunchTemplateName.isSome

/-- Every template on every page has a non-nil `LaunchTemplateId` and a non-nil
`LaunchTemplateName`. -/
def Listing.wellFormed (listing : Listing) : Prop :=
  ∀ lt ∈ listing.templates, lt.hasIdAndName = true

instance (listing : Listing) : Decidable listing.wellFormed := by
  unfold Listing.wellFormed; infer_instance

/-- The answers of the endpoint to the `DeleteLaunchTemplate` requests for a list of
templates, in order, from the state `svc` on. -/
def deleteAnswers {κ : Type} (Delete : κ → DeleteLaunchTemplateInput → κ × Option GoError) :
    List launchTemplate → κ → List (Option GoError)
  | [], _ => []
  | lt :: rest, svc =>
    let d := Delete svc { LaunchTemplateId := some lt.ID, LaunchTemplateName := none }
    d.2 :: deleteAnswers Delete rest d.1

/-- The answers of `Set.Mark` to the calls for a list of templates, in order, when the
set starts in state `set`: each call is made for the `launchTemplate` with the account and
region of the options and the template's id and name, with the template's `CreateTime`
and converted tags, on the state left by the previous call.  The list stops at a template
with a nil id or name. -/
def markAnswers {σ τ : Type}
    (Mark : σ → Options → launchTemplate → Option Time → τ → σ × Bool)
    (fromEC2Tags : List ec2Tag → τ) (opts : Options) :
    List ec2LaunchTemplate → σ → List Bool
  | [], _ => []
  | lt :: rest, set =>
    match lt.LaunchTemplateId with
    | none => []
    | some id =>
      match lt.LaunchTemplateName with
      | none => []
      | some name =>
        let m := Mark set opts
          { Account := opts.Account, Region := opts.Region, ID := id, Name := name }
          lt.CreateTime (fromEC2Tags lt.Tags)
        m.2 :: markAnswers Mark fromEC2Tags opts rest m.1

/-- The state of the set after the `Set.Mark` calls for a list of templates, from the
state `set` on. -/
def markedSet {σ τ : Type}
    (Mark : σ → Options → launchTemplate → Option Time → τ → σ × Bool)
    (fromEC2Tags : List ec2Tag → τ) (opts : Options) :
    List ec2LaunchTemplate → σ → σ
  | [], set => set
  | lt :: rest, set =>
    match lt.LaunchTemplateId with
    | none => set
    | some id =>
      match lt.LaunchTemplateName with
      | none => set
      | some name =>
        markedSet Mark fromEC2Tags opts rest (Mark set opts
          { Account := opts.Account, Region := opts.Region, ID := id, Name := name }
          lt.CreateTime (fromEC2Tags lt.Tags)).1

/-- The `DeleteLaunchTemplate` requests expected for a list of listed templates and the
answers of `Set.Mark` for them: one request per template whose answer is true, carrying
that template's `LaunchTemplateId`, in listing order. -/
def approvedRequests (ts : List ec2LaunchTemplate) (answers : List Bool) :
    List DeleteLaunchTemplateInput :=
  ((ts.zip answers).filter (fun p => p.2)).map
    (fun p => { LaunchTemplateId := p.1.LaunchTemplateId, LaunchTemplateName := none })

/-- A recorded `set.Mark` call is the call the code makes for a listed template: the
options of the run, a `launchTemplate` with the account and region of the options and
the template's id and name, the template's `CreateTime` and its converted tags. -/
def marksTemplate {τ : Type} (fromEC2Tags : List ec2Tag → τ) (opts : Options)
    (c : MarkCall τ) (lt : ec2LaunchTemplate) : Prop :=
  c.opts = opts ∧ c.resource.Account = opts.Account ∧ c.resource.Region = opts.Region ∧
    some c.resource.ID = lt.LaunchTemplateId ∧ some c.resource.Name = lt.LaunchTemplateName ∧
    c.created = lt.CreateTime ∧ c.tags = fromEC2Tags lt.Tags

/-- What a `set.Mark` call is about, apart from the options: resource, `CreateTime`, tags. -/
def MarkCall.args {τ : Type} (c : MarkCall τ) : launchTemplate × Option Time × τ :=
  (c.resource, c.created, c.tags)

/-- The calls issued by one iteration of the loop of `pageFunc`, for a template with
id `id` and name `name`, when the set is in state `set`. -/
def templateCalls {σ τ : Type}
    (Mark : σ → Options → launchTemplate → Option Time → τ → σ × Bool)
    (fromEC2Tags : List ec2Tag → τ) (opts : Options) (id name : String)
    (lt : ec2LaunchTemplate) (set : σ) : List (Call τ) :=
  let l : launchTemplate :=
    { Account := opts.Account, Region := opts.Region, ID := id, Name := name }
  let m := Mark set opts l lt.CreateTime (fromEC2Tags lt.Tags)
  if m.2 then
    [.mark opts l lt.CreateTime (fromEC2Tags lt.Tags) true,
     .warnDeleting (l.ARN ++ ": deleting *ec2.LaunchTemplate: " ++ l.Name)]
  else [.mark opts l lt.CreateTime (fromEC2Tags lt.Tags) false]

/-- The captured variables after one iteration of the loop of `pageFunc`. -/
def templateVars {σ τ : Type}
    (Mark : σ → Options → launchTemplate → Option Time → τ → σ × Bool)
    (fromEC2Tags : List ec2Tag → τ) (opts : Options) (id name : String)
    (lt : ec2LaunchTemplate) (v : SweepVars σ) : SweepVars σ :=
  let l : launchTemplate :=
    { Account := opts.Account, Region := opts.Region, ID := id, Name := name }
  let m := Mark v.set opts l lt.CreateTime (fromEC2Tags lt.Tags)
  { set := m.1, toDelete := if m.2 && !opts.DryRun then v.toDelete ++ [l] else v.toDelete }

/-- The ARN of a listed template in the scope of `opts`, when its id is not nil: it is
built from the region, the account and the id only. -/
def listedARN (opts : Options) (lt : ec2LaunchTemplate) : Option String :=
  lt.LaunchTemplateId.map fun id =>
    "arn:aws:ec2:" ++ opts.Region ++ ":" ++ opts.Account ++ ":launch-template/" ++ id

/-- The ARNs of all templates served by a listing, page after page. -/
def listedARNs (opts : Options) (listing : Listing) : List String :=
  listing.templates.filterMap (listedARN opts)

/-- The "delete failed" messages expected for a list of templates and the answers of the
endpoint to their deletion: one per failed deletion, with the ARN and the cause. -/
def expectedFailureWarnings : List launchTemplate → List (Option GoError) → List String
  | lt :: rest, some err :: answers =>
    (lt.ARN ++ ": delete failed: " ++ err.Error) :: expectedFailureWarnings rest answers
  | _ :: rest, none :: answers => expectedFailureWarnings rest answers
  | _, _ => []

/-- The `DeleteLaunchTemplate` request the code builds for a template. -/
def deleteRequestFor (lt : launchTemplate) : DeleteLaunchTemplateInput :=
  { LaunchTemplateId := some lt.ID, LaunchTemplateName := none }

/-! ### Concrete inputs -/

/-- A template with the given id, name and creation time, without tags. -/
def sampleTemplate (id name : String) (created : Option Time) : ec2LaunchTemplate :=
  { CreateTime := created, LaunchTemplateId := some id, LaunchTemplateName := some name,
    Tags := [] }

/-- Run options for account `"123"` in region `"us-east-1"`. -/
def sampleOpts (dryRun : Bool) : Options :=
  { Account := "123", Region := "us-east-1", DryRun := dryRun }

/-- A `Set.Mark` that counts its calls and approves the resources created before tick 100. -/
def sampleMark (n : Nat) (_opts : Options) (_l : launchTemplate) (created : Option Time)
    (_tags : List ec2Tag) : Nat × Bool :=
  (n + 1, match created with
    | some t => decide (t < 100)
    | none => false)

/-- An endpoint that counts the deletions and refuses the one of `"lt-3"`. -/
def sampleDelete (n : Nat) (req : DeleteLaunchTemplateInput) : Nat × Option GoError :=
  (n + 1, if req.LaunchTemplateId = some "lt-3" then some (.base "in use") else none)

/-- Two pages with six templates; all but `"lt-young"` were created before tick 100. -/
def samplePages : List DescribeLaunchTemplatesOutput :=
  [ { LaunchTemplates := [sampleTemplate "lt-1" "a" (some 10), sampleTemplate "lt-2" "b" (some 20),
        sampleTemplate "lt-young" "y" (some 500), sampleTemplate "lt-3" "c" (some 30)] },
    { LaunchTemplates := [sampleTemplate "lt-4" "d" (some 40), sampleTemplate "lt-5" "e" (some 50)] } ]

/-- The five templates of `samplePages` that `sampleMark` approves, in listing order. -/
def sampleApproved : List launchTemplate :=
  [⟨"123", "us-east-1", "lt-1", "a"⟩, ⟨"123", "us-east-1", "lt-2", "b"⟩,
   ⟨"123", "us-east-1", "lt-3", "c"⟩, ⟨"123", "us-east-1", "lt-4", "d"⟩,
   ⟨"123", "us-east-1", "lt-5", "e"⟩]

/-- A page with one template whose `CreateTime` is nil and whose tags are empty. -/
def nilTimeListing : Listing :=
  { pages := [ { LaunchTemplates := [sampleTemplate "lt-1" "a" none] } ], err := none }

/-- A clock that ticks by one at every call of `time.Now()`. -/
def sampleClock (n : Nat) : Time :=
  1000 + n

/-- A stand-in for the `%q` verb: the string between double quotes, without escaping. -/
def sampleQuote (s : String) : String :=
  "\"" ++ s ++ "\""

/-- A listing that serves `samplePages` and succeeds. -/
def sampleListing : Listing :=
  { pages := samplePages, err := none }

/-- A listing that serves `samplePages` and then fails. -/
def failingListing : Listing :=
  { pages := samplePages, err := some (.base "throttled") }

/-- A listing whose second template has an id but a nil name. -/
def nilNameListing : Listing :=
  { pages := [ { LaunchTemplates := [sampleTemplate "lt-1" "a" (some 10),
      { CreateTime := some 20, LaunchTemplateId := some "lt-2", LaunchTemplateName := none,
        Tags := [] }] } ],
    err := none }

/-! ## Reading lists of calls: basic facts -/

section Reading

variable {τ : Type}

@[simp]
theorem markCalls_nil : markCalls ([] : List (Call τ)) = [] := rfl

@[simp]
theorem markCalls_append (a b : List (Call τ)) :
    markCalls (a ++ b) = markCalls a ++ markCalls b := by
  simp [markCalls, List.filterMap_append]

@[simp]
theorem markCalls_fetch (i : Nat) (cs : List (Call τ)) :
    markCalls (.fetch i :: cs) = markCalls cs := by
  simp [markCalls, List.filterMap_cons]

@[simp]
theorem markCalls_mark (o : Options) (l : launchTemplate) (t : Option Time) (g : τ)
    (b : Bool) (cs : List (Call τ)) :
    markCalls (.mark o l t g b :: cs) = ⟨o, l, t, g, b⟩ :: markCalls cs := by
  simp [markCalls, List.filterMap_cons]

@[simp]
theorem markCalls_warnDeleting (m : String) (cs : List (Call τ)) :
    markCalls (.warnDeleting m :: cs) = markCalls cs := by
  simp [markCalls, List.filterMap_cons]

@[simp]
theorem markCalls_warnDeleteFailed (m : String) (cs : List (Call τ)) :
    markCalls (.warnDeleteFailed m :: cs) = markCalls cs := by
  simp [markCalls, List.filterMap_cons]

@[simp]
theorem markCalls_delete (q : DeleteLaunchTemplateInput) (cs : List (Call τ)) :
    markCalls (.delete q :: cs) = markCalls cs := by
  simp [markCalls, List.filterMap_cons]

@[simp]
theorem deleteRequests_nil : deleteRequests ([] : List (Call τ)) = [] := rfl

@[simp]
theorem deleteRequests_append (a b : List (Call τ)) :
    deleteRequests (a ++ b) = deleteRequests a ++ deleteRequests b := by
  simp [deleteRequests, List.filterMap_append]

@[simp]
theorem deleteRequests_fetch (i : Nat) (cs : List (Call τ)) :
    deleteRequests (.fetch i :: cs) = deleteRequests cs := by
  simp [deleteRequests, List.filterMap_cons]

@[simp]
theorem deleteRequests_mark (o : Options) (l : launchTemplate) (t : Option Time) (g : τ)
    (b : Bool) (cs : List (Call τ)) :
    deleteRequests (.mark o l t g b :: cs) = deleteRequests cs := by
  simp [deleteRequests, List.filterMap_cons]

@[simp]
theorem deleteRequests_warnDeleting (m : String) (cs : List (Call τ)) :
    deleteRequests (.warnDeleting m :: cs) = deleteRequests cs := by
  simp [deleteRequests, List.filterMap_cons]

@[simp]
theorem deleteRequests_warnDeleteFailed (m : String) (cs : List (Call τ)) :
    deleteRequests (.warnDeleteFailed m :: cs) = deleteRequests cs := by
  simp [deleteRequests, List.filterMap_cons]

@[simp]
theorem deleteRequests_delete (q : DeleteLaunchTemplateInput) (cs : List (Call τ)) :
    deleteRequests (.delete q :: cs) = q :: deleteRequests cs := by
  simp [deleteRequests, List.filterMap_cons]

@[simp]
theorem fetchedPages_nil : fetchedPages ([] : List (Call τ)) = [] := rfl

@[simp]
theorem fetchedPages_append (a b : List (Call τ)) :
    fetchedPages (a ++ b) = fetchedPages a ++ fetchedPages b := by
  simp [fetchedPages, List.filterMap_append]

@[simp]
theorem fetchedPages_fetch (i : Nat) (cs : List (Call τ)) :
    fetchedPages (.fetch i :: cs) = i :: fetchedPages cs := by
  simp [fetchedPages, List.filterMap_cons]

@[simp]
theorem fetchedPages_mark (o : Options) (l : launchTemplate) (t : Option Time) (g : τ)
    (b : Bool) (cs : List (Call τ)) :
    fetchedPages (.mark o l t g b :: cs) = fetchedPages cs := by
  simp [fetchedPages, List.filterMap_cons]

@[simp]
theorem fetchedPages_warnDeleting (m : String) (cs : List (Call τ)) :
    fetchedPages (.warnDeleting m :: cs) = fetchedPages cs := by
  simp [fetchedPages, List.filterMap_cons]

@[simp]
theorem fetchedPages_warnDeleteFailed (m : String) (cs : List (Call τ)) :
    fetchedPages (.warnDeleteFailed m :: cs) = fetchedPages cs := by
  simp [fetchedPages, List.filterMap_cons]

@[simp]
theorem fetchedPages_delete (q : DeleteLaunchTemplateInput) (cs : List (Call τ)) :
    fetchedPages (.delete q :: cs) = fetchedPages cs := by
  simp [fetchedPages, List.filterMap_cons]

@[simp]
theorem deleteFailedWarnings_nil : deleteFailedWarnings ([] : List (Call τ)) = [] := rfl

@[simp]
theorem deleteFailedWarnings_append (a b : List (Call τ)) :
    deleteFailedWarnings (a ++ b) = deleteFailedWarnings a ++ deleteFailedWarnings b := by
  simp [deleteFailedWarnings, List.filterMap_append]

@[simp]
theorem deleteFailedWarnings_fetch (i : Nat) (cs : List (Call τ)) :
    deleteFailedWarnings (.fetch i :: cs) = deleteFailedWarnings cs := by
  simp [deleteFailedWarnings, List.filterMap_cons]

@[simp]
theorem deleteFailedWarnings_mark (o : Options) (l : launchTemplate) (t : Option Time)
    (g : τ) (b : Bool) (cs : List (Call τ)) :
    deleteFailedWarnings (.mark o l t g b :: cs) = deleteFailedWarnings cs := by
  simp [deleteFailedWarnings, List.filterMap_cons]

@[simp]
theorem deleteFailedWarnings_warnDeleting (m : String) (cs : List (Call τ)) :
    deleteFailedWarnings (.warnDeleting m :: cs) = deleteFailedWarnings cs := by
  simp [deleteFailedWarnings, List.filterMap_cons]

@[simp]
theorem deleteFailedWarnings_warnDeleteFailed (m : String) (cs : List (Call τ)) :
    deleteFailedWarnings (.warnDeleteFailed m :: cs) = m :: deleteFailedWarnings cs := by
  simp [deleteFailedWarnings, List.filterMap_cons]

@[simp]
theorem deleteFailedWarnings_delete (q : DeleteLaunchTemplateInput) (cs : List (Call τ)) :
    deleteFailedWarnings (.delete q :: cs) = deleteFailedWarnings cs := by
  simp [deleteFailedWarnings, List.filterMap_cons]

end Reading

/-! ## The page callback of `MarkAndSweep` -/

section PageFunc

variable {σ τ : Type}
variable (Mark : σ → Options → launchTemplate → Option Time → τ → σ × Bool)
variable (fromEC2Tags : List ec2Tag → τ) (opts : Options)

/-- One iteration of the loop of `pageFunc` on a template with both pointers set. -/
theorem pageFuncLoop_cons (lt : ec2LaunchTemplate) (rest : List ec2LaunchTemplate)
    (v : SweepVars σ) (id name : String)
    (hid : lt.LaunchTemplateId = some id) (hname : lt.LaunchTemplateName = some name) :
    pageFuncLoop Mark fromEC2Tags opts (lt :: rest) v =
      ⟨templateCalls Mark fromEC2Tags opts id name lt v.set ++
          (pageFuncLoop Mark fromEC2Tags opts rest
            (templateVars Mark fromEC2Tags opts id name lt v)).calls,
        (pageFuncLoop Mark fromEC2Tags opts rest
            (templateVars Mark fromEC2Tags opts id name lt v)).vars,
        (pageFuncLoop Mark fromEC2Tags opts rest
            (templateVars Mark fromEC2Tags opts id name lt v)).out⟩ := by
  simp only [pageFuncLoop, hid, hname, templateCalls, templateVars]
  cases hm : (Mark v.set opts
      { Account := opts.Account, Region := opts.Region, ID := id, Name := name }
      lt.CreateTime (fromEC2Tags lt.Tags)).2 <;> cases hd : opts.DryRun <;> simp

/-- One iteration of the loop of `pageFunc` on a template with a nil id or name. -/
theorem pageFuncLoop_cons_nil (lt : ec2LaunchTemplate) (rest : List ec2LaunchTemplate)
    (v : SweepVars σ) (h : lt.hasIdAndName = false) :
    pageFuncLoop Mark fromEC2Tags opts (lt :: rest) v = ⟨[], v, .error .nilDereference⟩ := by
  cases hid : lt.LaunchTemplateId with
  | none => simp [pageFuncLoop, hid]
  | some id =>
    cases hname : lt.LaunchTemplateName with
    | none => simp [pageFuncLoop, hid, hname]
    | some name => simp [ec2LaunchTemplate.hasIdAndName, hid, hname] at h

theorem hasIdAndName_iff (lt : ec2LaunchTemplate) :
    lt.hasIdAndName = true ↔
      ∃ id name, lt.LaunchTemplateId = some id ∧ lt.LaunchTemplateName = some name := by
  cases hid : lt.LaunchTemplateId <;> cases hname : lt.LaunchTemplateName <;>
    simp [ec2LaunchTemplate.hasIdAndName, hid, hname]

theorem templateCalls_reading (id name : String) (lt : ec2LaunchTemplate) (set : σ) :
    deleteRequests (templateCalls Mark fromEC2Tags opts id name lt set) = [] ∧
    fetchedPages (templateCalls Mark fromEC2Tags opts id name lt set) = [] ∧
    deleteFailedWarnings (templateCalls Mark fromEC2Tags opts id name lt set) = [] ∧
    (∀ c ∈ templateCalls Mark fromEC2Tags opts id name lt set, c.isDelete = false) ∧
    markCalls (templateCalls Mark fromEC2Tags opts id name lt set) =
      [⟨opts, { Account := opts.Account, Region := opts.Region, ID := id, Name := name },
        lt.CreateTime, fromEC2Tags lt.Tags,
        (Mark set opts { Account := opts.Account, Region := opts.Region, ID := id, Name := name }
          lt.CreateTime (fromEC2Tags lt.Tags)).2⟩] := by
  simp only [templateCalls]
  cases hm : (Mark set opts
      { Account := opts.Account, Region := opts.Region, ID := id, Name := name }
      lt.CreateTime (fromEC2Tags lt.Tags)).2 <;> simp [Call.isDelete]

/-- The callback issues `set.Mark` calls and warnings only. -/
theorem pageFuncLoop_quiet (ts : List ec2LaunchTemplate) (v : SweepVars σ) :
    deleteRequests (pageFuncLoop Mark fromEC2Tags opts ts v).calls = [] ∧
    fetchedPages (pageFuncLoop Mark fromEC2Tags opts ts v).calls = [] ∧
    deleteFailedWarnings (pageFuncLoop Mark fromEC2Tags opts ts v).calls = [] ∧
    ∀ c ∈ (pageFuncLoop Mark fromEC2Tags opts ts v).calls, c.isDelete = false := by
  induction ts generalizing v with
  | nil => simp [pageFuncLoop]
  | cons lt rest ih =>
    cases h : lt.hasIdAndName with
    | false => simp [pageFuncLoop_cons_nil Mark fromEC2Tags opts lt rest v h]
    | true =>
      obtain ⟨id, name, hid, hname⟩ := (hasIdAndName_iff lt).1 h
      rw [pageFuncLoop_cons Mark fromEC2Tags opts lt rest v id name hid hname]
      obtain ⟨h1, h2, h3, h4⟩ := ih (templateVars Mark fromEC2Tags opts id name lt v)
      obtain ⟨t1, t2, t3, t4, -⟩ := templateCalls_reading Mark fromEC2Tags opts id name lt v.set
      refine ⟨by simp [h1, t1], by simp [h2, t2], by simp [h3, t3], ?_⟩
      intro c hc
      simp only [List.mem_append] at hc
      rcases hc with hc | hc
      · exact t4 c hc
      · exact h4 c hc

/-- The callback returns `true` whenever it returns, and it returns exactly when no
template of the page has a nil id or name. -/
theorem pageFuncLoop_out (ts : List ec2LaunchTemplate) (v : SweepVars σ) :
    ((∀ lt ∈ ts, lt.hasIdAndName = true) →
      (pageFuncLoop Mark fromEC2Tags opts ts v).out = .ok true) ∧
    ((¬ ∀ lt ∈ ts, lt.hasIdAndName = true) →
      (pageFuncLoop Mark fromEC2Tags opts ts v).out = .error .nilDereference) := by
  induction ts generalizing v with
  | nil => simp [pageFuncLoop]
  | cons lt rest ih =>
    cases h : lt.hasIdAndName with
    | false => simp [pageFuncLoop_cons_nil Mark fromEC2Tags opts lt rest v h, h]
    | true =>
      obtain ⟨id, name, hid, hname⟩ := (hasIdAndName_iff lt).1 h
      rw [pageFuncLoop_cons Mark fromEC2Tags opts lt rest v id name hid hname]
      simpa [h] using ih (templateVars Mark fromEC2Tags opts id name lt v)

/-- On a page without nil ids or names, there is one `set.Mark` call per template, in
order, each for that template. -/
theorem pageFuncLoop_marks (ts : List ec2LaunchTemplate) (v : SweepVars σ)
    (hts : ∀ lt ∈ ts, lt.hasIdAndName = true) :
    List.Forall₂ (marksTemplate fromEC2Tags opts)
      (markCalls (pageFuncLoop Mark fromEC2Tags opts ts v).calls) ts := by
  induction ts generalizing v with
  | nil => simp [pageFuncLoop]
  | cons lt rest ih =>
    have h : lt.hasIdAndName = true := hts lt (List.mem_cons_self _ _)
    obtain ⟨id, name, hid, hname⟩ := (hasIdAndName_iff lt).1 h
    rw [pageFuncLoop_cons Mark fromEC2Tags opts lt rest v id name hid hname]
    obtain ⟨-, -, -, -, t5⟩ := templateCalls_reading Mark fromEC2Tags opts id name lt v.set
    simp only [markCalls_append, t5, List.singleton_append, List.forall₂_cons]
    refine ⟨?_, ih _ (fun x hx => hts x (List.mem_cons_of_mem _ hx))⟩
    simp [marksTemplate, hid, hname]

/-- The slice `toDelete` after the callback: what it held before, followed, unless
dry-run, by the resources of the `set.Mark` calls that returned true. -/
theorem pageFuncLoop_toDelete (ts : List ec2LaunchTemplate) (v : SweepVars σ) :
    (pageFuncLoop Mark fromEC2Tags opts ts v).vars.toDelete =
      v.toDelete ++ (if opts.DryRun then [] else
        ((markCalls (pageFuncLoop Mark fromEC2Tags opts ts v).calls).filter
          (fun c => c.result)).map (fun c => c.resource)) := by
  induction ts generalizing v with
  | nil => simp [pageFuncLoop]
  | cons lt rest ih =>
    cases h : lt.hasIdAndName with
    | false => simp [pageFuncLoop_cons_nil Mark fromEC2Tags opts lt rest v h]
    | true =>
      obtain ⟨id, name, hid, hname⟩ := (hasIdAndName_iff lt).1 h
      rw [pageFuncLoop_cons Mark fromEC2Tags opts lt rest v id name hid hname]
      obtain ⟨-, -, -, -, t5⟩ := templateCalls_reading Mark fromEC2Tags opts id name lt v.set
      simp only [markCalls_append, t5, ih, templateVars]
      cases hm : (Mark v.set opts
        { Account := opts.Account, Region := opts.Region, ID := id, Name := name }
        lt.CreateTime (fromEC2Tags lt.Tags)).2 <;> cases hd : opts.DryRun <;>
        simp [List.filter_cons]

/-- The sequence of `set.Mark` calls (resource, `CreateTime`, tags) made by the callback,
and whether it panics, depend neither on the answers of `set.Mark` nor on `DryRun`. -/
theorem pageFuncLoop_two_runs {σ' : Type}
    (Mark' : σ' → Options → launchTemplate → Option Time → τ → σ' × Bool) (opts' : Options)
    (ha : opts.Account = opts'.Account) (hr : opts.Region = opts'.Region)
    (ts : List ec2LaunchTemplate) (v : SweepVars σ) (v' : SweepVars σ') :
    (markCalls (pageFuncLoop Mark fromEC2Tags opts ts v).calls).map MarkCall.args =
      (markCalls (pageFuncLoop Mark' fromEC2Tags opts' ts v').calls).map MarkCall.args ∧
    (pageFuncLoop Mark fromEC2Tags opts ts v).out =
      (pageFuncLoop Mark' fromEC2Tags opts' ts v').out := by
  induction ts generalizing v v' with
  | nil => simp [pageFuncLoop]
  | cons lt rest ih =>
    cases h : lt.hasIdAndName with
    | false =>
      simp [pageFuncLoop_cons_nil Mark fromEC2Tags opts lt rest v h,
        pageFuncLoop_cons_nil Mark' fromEC2Tags opts' lt rest v' h]
    | true =>
      obtain ⟨id, name, hid, hname⟩ := (hasIdAndName_iff lt).1 h
      rw [pageFuncLoop_cons Mark fromEC2Tags opts lt rest v id name hid hname,
        pageFuncLoop_cons Mark' fromEC2Tags opts' lt rest v' id name hid hname]
      obtain ⟨-, -, -, -, t5⟩ := templateCalls_reading Mark fromEC2Tags opts id name lt v.set
      obtain ⟨-, -, -, -, t5'⟩ := templateCalls_reading Mark' fromEC2Tags opts' id name lt v'.set
      obtain ⟨h1, h2⟩ := ih (templateVars Mark fromEC2Tags opts id name lt v)
        (templateVars Mark' fromEC2Tags opts' id name lt v')
      refine ⟨?_, h2⟩
      simp only [markCalls_append, t5, t5', List.map_append, h1]
      simp [MarkCall.args, ha, hr]

/-- On a page without nil ids or names, the recorded results of the `set.Mark` calls are
the answers of the oracle, threaded through the state of the set, and the set ends in the
state left by the last call. -/
theorem pageFuncLoop_answers (ts : List ec2LaunchTemplate) (v : SweepVars σ)
    (hts : ∀ lt ∈ ts, lt.hasIdAndName = true) :
    (markCalls (pageFuncLoop Mark fromEC2Tags opts ts v).calls).map (fun c => c.result) =
      markAnswers Mark fromEC2Tags opts ts v.set ∧
    (pageFuncLoop Mark fromEC2Tags opts ts v).vars.set =
      markedSet Mark fromEC2Tags opts ts v.set := by
  induction ts generalizing v with
  | nil => simp [pageFuncLoop, markAnswers, markedSet]
  | cons lt rest ih =>
    have h : lt.hasIdAndName = true := hts lt (List.mem_cons_self _ _)
    obtain ⟨id, name, hid, hname⟩ := (hasIdAndName_iff lt).1 h
    rw [pageFuncLoop_cons Mark fromEC2Tags opts lt rest v id name hid hname]
    obtain ⟨-, -, -, -, t5⟩ := templateCalls_reading Mark fromEC2Tags opts id name lt v.set
    obtain ⟨h1, h2⟩ := ih (templateVars Mark fromEC2Tags opts id name lt v)
      (fun x hx => hts x (List.mem_cons_of_mem _ hx))
    have hv : (templateVars Mark fromEC2Tags opts id name lt v).set = (Mark v.set opts
        { Account := opts.Account, Region := opts.Region, ID := id, Name := name }
        lt.CreateTime (fromEC2Tags lt.Tags)).1 := rfl
    rw [hv] at h1 h2
    constructor
    · simp only [markCalls_append, t5, List.singleton_append, List.map_cons, h1, markAnswers,
        hid, hname]
    · simp only [h2, markedSet, hid, hname]

/-- The answers of `Set.Mark` for two consecutive lists of templates. -/
theorem markAnswers_append (a b : List ec2LaunchTemplate) (set : σ)
    (ha : ∀ lt ∈ a, lt.hasIdAndName = true) :
    markAnswers Mark fromEC2Tags opts (a ++ b) set =
      markAnswers Mark fromEC2Tags opts a set ++
        markAnswers Mark fromEC2Tags opts b (markedSet Mark fromEC2Tags opts a set) ∧
    markedSet Mark fromEC2Tags opts (a ++ b) set =
      markedSet Mark fromEC2Tags opts b (markedSet Mark fromEC2Tags opts a set) := by
  induction a generalizing set with
  | nil => simp [markAnswers, markedSet]
  | cons lt rest ih =>
    have h : lt.hasIdAndName = true := ha lt (List.mem_cons_self _ _)
    obtain ⟨id, name, hid, hname⟩ := (hasIdAndName_iff lt).1 h
    obtain ⟨h1, h2⟩ := ih (Mark set opts
      { Account := opts.Account, Region := opts.Region, ID := id, Name := name }
      lt.CreateTime (fromEC2Tags lt.Tags)).1 (fun x hx => ha x (List.mem_cons_of_mem _ hx))
    constructor
    · simp only [List.cons_append, markAnswers, markedSet, hid, hname, List.append_eq, h1,
        List.cons_append]
    · simp only [List.cons_append, markedSet, hid, hname, List.append_eq, h2]

/-- The requests expected from the recorded calls: when the calls are those made for a
list of templates, the requests for the calls with a true result are the requests expected
for these templates and the recorded results. -/
theorem approvedRequests_of_marks (cs : List (MarkCall τ)) (ts : List ec2LaunchTemplate)
    (h : List.Forall₂ (marksTemplate fromEC2Tags opts) cs ts) :
    (cs.filter (fun c => c.result)).map (fun c => deleteRequestFor c.resource) =
      approvedRequests ts (cs.map (fun c => c.result)) := by
  induction h with
  | nil => rfl
  | @cons c lt cs' ts' hc _ ih =>
    obtain ⟨-, -, -, hid, -, -, -⟩ := hc
    simp only [approvedRequests, deleteRequestFor] at ih ⊢
    cases hres : c.result with
    | false => simp [List.filter_cons, hres, ih]
    | true => simp [List.filter_cons, hres, ih, hid]

end PageFunc

/-! ## The paged listing of `MarkAndSweep` -/

section Paging

variable {σ τ : Type}
variable (Mark : σ → Options → launchTemplate → Option Time → τ → σ × Bool)
variable (fromEC2Tags : List ec2Tag → τ) (opts : Options)

theorem mem_templates_cons (page : DescribeLaunchTemplatesOutput)
    (rest : List DescribeLaunchTemplatesOutput) (P : ec2LaunchTemplate → Prop) :
    (∀ lt ∈ (page :: rest).flatMap (fun p => p.LaunchTemplates), P lt) ↔
      (∀ lt ∈ page.LaunchTemplates, P lt) ∧
        ∀ lt ∈ rest.flatMap (fun p => p.LaunchTemplates), P lt := by
  simp only [List.flatMap_cons, List.mem_append]
  constructor
  · intro h
    exact ⟨fun lt hl => h lt (Or.inl hl), fun lt hl => h lt (Or.inr hl)⟩
  · rintro ⟨h1, h2⟩ lt (hl | hl)
    · exact h1 lt hl
    · exact h2 lt hl

/-- The page loop on a page that the callback accepts. -/
theorem pagesFrom_cons_ok {S : Type}
    (fn : DescribeLaunchTemplatesOutput → Bool → S → Step τ S Bool) (err : Option GoError)
    (i : Nat) (page : DescribeLaunchTemplatesOutput) (rest : List DescribeLaunchTemplatesOutput)
    (v : S) (h : (fn page (rest.isEmpty && err.isNone) v).out = .ok true) :
    pagesFrom fn err i (page :: rest) v =
      ⟨.fetch i :: ((fn page (rest.isEmpty && err.isNone) v).calls ++
          (pagesFrom fn err (i + 1) rest (fn page (rest.isEmpty && err.isNone) v).vars).calls),
        (pagesFrom fn err (i + 1) rest (fn page (rest.isEmpty && err.isNone) v).vars).vars,
        (pagesFrom fn err (i + 1) rest (fn page (rest.isEmpty && err.isNone) v).vars).out⟩ := by
  simp only [pagesFrom, h]

/-- The page loop on a page on which the callback panics. -/
theorem pagesFrom_cons_panic {S : Type}
    (fn : DescribeLaunchTemplatesOutput → Bool → S → Step τ S Bool) (err : Option GoError)
    (i : Nat) (page : DescribeLaunchTemplatesOutput) (rest : List DescribeLaunchTemplatesOutput)
    (v : S) (p : Panic) (h : (fn page (rest.isEmpty && err.isNone) v).out = .error p) :
    pagesFrom fn err i (page :: rest) v =
      ⟨.fetch i :: (fn page (rest.isEmpty && err.isNone) v).calls,
        (fn page (rest.isEmpty && err.isNone) v).vars, .error p⟩ := by
  simp only [pagesFrom, h]

/-- The paged listing of `MarkAndSweep` issues no `DeleteLaunchTemplate` request and no
"delete failed" warning. -/
theorem sweepPages_quiet (err : Option GoError) (i : Nat)
    (pages : List DescribeLaunchTemplatesOutput) (v : SweepVars σ) :
    deleteRequests (pagesFrom (pageFunc Mark fromEC2Tags opts) err i pages v).calls = [] ∧
    deleteFailedWarnings (pagesFrom (pageFunc Mark fromEC2Tags opts) err i pages v).calls = [] ∧
    ∀ c ∈ (pagesFrom (pageFunc Mark fromEC2Tags opts) err i pages v).calls,
      c.isDelete = false := by
  induction pages generalizing i v with
  | nil => cases err <;> simp [pagesFrom, Call.isDelete]
  | cons page rest ih =>
    obtain ⟨q1, -, q3, q4⟩ := pageFuncLoop_quiet Mark fromEC2Tags opts page.LaunchTemplates v
    by_cases hwf : ∀ lt ∈ page.LaunchTemplates, lt.hasIdAndName = true
    · have hout := (pageFuncLoop_out Mark fromEC2Tags opts page.LaunchTemplates v).1 hwf
      rw [pagesFrom_cons_ok _ _ _ _ _ _ (by simpa [pageFunc] using hout)]
      obtain ⟨h1, h2, h3⟩ := ih (i + 1)
        (pageFunc Mark fromEC2Tags opts page (rest.isEmpty && err.isNone) v).vars
      refine ⟨by simpa [pageFunc, q1] using h1, by simpa [pageFunc, q3] using h2, ?_⟩
      intro c hc
      simp only [List.mem_cons, List.mem_append] at hc
      rcases hc with rfl | hc | hc
      · rfl
      · exact q4 c hc
      · exact h3 c hc
    · have hout := (pageFuncLoop_out Mark fromEC2Tags opts page.LaunchTemplates v).2 hwf
      rw [pagesFrom_cons_panic _ _ _ _ _ _ _ (by simpa [pageFunc] using hout)]
      refine ⟨by simpa [pageFunc] using q1, by simpa [pageFunc] using q3, ?_⟩
      intro c hc
      simp only [List.mem_cons] at hc
      rcases hc with rfl | hc
      · rfl
      · exact q4 c hc

/-- The paged listing of `MarkAndSweep` returns exactly when no served template has a nil
id or name; it then returns the error of the endpoint, after requesting every page once,
in order (and once more when the request after the last page fails). -/
theorem sweepPages_out (err : Option GoError) (i : Nat)
    (pages : List DescribeLaunchTemplatesOutput) (v : SweepVars σ) :
    ((∀ lt ∈ pages.flatMap (fun p => p.LaunchTemplates), lt.hasIdAndName = true) →
      (pagesFrom (pageFunc Mark fromEC2Tags opts) err i pages v).out = .ok err ∧
      fetchedPages (pagesFrom (pageFunc Mark fromEC2Tags opts) err i pages v).calls =
        List.range' i (pages.length + (if err.isSome then 1 else 0))) ∧
    ((¬ ∀ lt ∈ pages.flatMap (fun p => p.LaunchTemplates), lt.hasIdAndName = true) →
      (pagesFrom (pageFunc Mark fromEC2Tags opts) err i pages v).out =
        .error .nilDereference) := by
  induction pages generalizing i v with
  | nil => cases err <;> simp [pagesFrom]
  | cons page rest ih =>
    obtain ⟨-, q2, -, -⟩ := pageFuncLoop_quiet Mark fromEC2Tags opts page.LaunchTemplates v
    rw [mem_templates_cons]
    by_cases hwf : ∀ lt ∈ page.LaunchTemplates, lt.hasIdAndName = true
    · have hout := (pageFuncLoop_out Mark fromEC2Tags opts page.LaunchTemplates v).1 hwf
      rw [pagesFrom_cons_ok _ _ _ _ _ _ (by simpa [pageFunc] using hout)]
      obtain ⟨h1, h2⟩ := ih (i + 1)
        (pageFunc Mark fromEC2Tags opts page (rest.isEmpty && err.isNone) v).vars
      constructor
      · rintro ⟨-, hrest⟩
        obtain ⟨g1, g2⟩ := h1 hrest
        refine ⟨g1, ?_⟩
        have q2' : fetchedPages
            (pageFunc Mark fromEC2Tags opts page (rest.isEmpty && err.isNone) v).calls = [] := by
          simpa [pageFunc] using q2
        simp only [fetchedPages_fetch, fetchedPages_append, q2', g2, List.nil_append,
          List.length_cons]
        rw [show rest.length + 1 + (if err.isSome = true then 1 else 0) =
          (rest.length + (if err.isSome = true then 1 else 0)) + 1 by omega]
        rfl
      · intro hbad
        exact h2 (fun hrest => hbad ⟨hwf, hrest⟩)
    · have hout := (pageFuncLoop_out Mark fromEC2Tags opts page.LaunchTemplates v).2 hwf
      rw [pagesFrom_cons_panic _ _ _ _ _ _ _ (by simpa [pageFunc] using hout)]
      constructor
      · rintro ⟨h, -⟩
        exact absurd h hwf
      · intro _
        rfl

/-- When no served template has a nil id or name, the paged listing of `MarkAndSweep`
makes one `set.Mark` call per served template, in listing order across pages. -/
theorem sweepPages_marks (err : Option GoError) (i : Nat)
    (pages : List DescribeLaunchTemplatesOutput) (v : SweepVars σ)
    (hwf : ∀ lt ∈ pages.flatMap (fun p => p.LaunchTemplates), lt.hasIdAndName = true) :
    List.Forall₂ (marksTemplate fromEC2Tags opts)
      (markCalls (pagesFrom (pageFunc Mark fromEC2Tags opts) err i pages v).calls)
      (pages.flatMap (fun p => p.LaunchTemplates)) := by
  induction pages generalizing i v with
  | nil => cases err <;> simp [pagesFrom]
  | cons page rest ih =>
    rw [mem_templates_cons] at hwf
    obtain ⟨hpage, hrest⟩ := hwf
    have hout := (pageFuncLoop_out Mark fromEC2Tags opts page.LaunchTemplates v).1 hpage
    rw [pagesFrom_cons_ok _ _ _ _ _ _ (by simpa [pageFunc] using hout)]
    simp only [markCalls_fetch, markCalls_append, List.flatMap_cons]
    exact List.rel_append
      (by simpa [pageFunc] using
        pageFuncLoop_marks Mark fromEC2Tags opts page.LaunchTemplates v hpage)
      (ih (i + 1) _ hrest)

/-- The slice `toDelete` after the paged listing. -/
theorem sweepPages_toDelete (err : Option GoError) (i : Nat)
    (pages : List DescribeLaunchTemplatesOutput) (v : SweepVars σ) :
    (pagesFrom (pageFunc Mark fromEC2Tags opts) err i pages v).vars.toDelete =
      v.toDelete ++ (if opts.DryRun then [] else
        ((markCalls (pagesFrom (pageFunc Mark fromEC2Tags opts) err i pages v).calls).filter
          (fun c => c.result)).map (fun c => c.resource)) := by
  induction pages generalizing i v with
  | nil => cases err <;> simp [pagesFrom]
  | cons page rest ih =>
    have ht := pageFuncLoop_toDelete Mark fromEC2Tags opts page.LaunchTemplates v
    by_cases hwf : ∀ lt ∈ page.LaunchTemplates, lt.hasIdAndName = true
    · have hout := (pageFuncLoop_out Mark fromEC2Tags opts page.LaunchTemplates v).1 hwf
      rw [pagesFrom_cons_ok _ _ _ _ _ _ (by simpa [pageFunc] using hout)]
      simp only [markCalls_fetch, markCalls_append, ih, pageFunc, ht]
      cases opts.DryRun <;> simp
    · have hout := (pageFuncLoop_out Mark fromEC2Tags opts page.LaunchTemplates v).2 hwf
      rw [pagesFrom_cons_panic _ _ _ _ _ _ _ (by simpa [pageFunc] using hout)]
      simpa [pageFunc] using ht

/-- The sequence of `set.Mark` calls (resource, `CreateTime`, tags) of the paged listing,
and its result, depend neither on the answers of `set.Mark` nor on `DryRun`. -/
theorem sweepPages_two_runs {σ' : Type}
    (Mark' : σ' → Options → launchTemplate → Option Time → τ → σ' × Bool) (opts' : Options)
    (ha : opts.Account = opts'.Account) (hr : opts.Region = opts'.Region)
    (err : Option GoError) (i : Nat)
    (pages : List DescribeLaunchTemplatesOutput) (v : SweepVars σ) (v' : SweepVars σ') :
    (markCalls (pagesFrom (pageFunc Mark fromEC2Tags opts) err i pages v).calls).map
        MarkCall.args =
      (markCalls (pagesFrom (pageFunc Mark' fromEC2Tags opts') err i pages v').calls).map
        MarkCall.args ∧
    (pagesFrom (pageFunc Mark fromEC2Tags opts) err i pages v).out =
      (pagesFrom (pageFunc Mark' fromEC2Tags opts') err i pages v').out := by
  induction pages generalizing i v v' with
  | nil => cases err <;> simp [pagesFrom]
  | cons page rest ih =>
    obtain ⟨t1, t2⟩ := pageFuncLoop_two_runs Mark fromEC2Tags opts Mark' opts' ha hr
      page.LaunchTemplates v v'
    by_cases hwf : ∀ lt ∈ page.LaunchTemplates, lt.hasIdAndName = true
    · have hout := (pageFuncLoop_out Mark fromEC2Tags opts page.LaunchTemplates v).1 hwf
      have hout' := (pageFuncLoop_out Mark' fromEC2Tags opts' page.LaunchTemplates v').1 hwf
      rw [pagesFrom_cons_ok _ _ _ _ _ _ (by simpa [pageFunc] using hout),
        pagesFrom_cons_ok _ _ _ _ _ _ (by simpa [pageFunc] using hout')]
      obtain ⟨h1, h2⟩ := ih (i + 1)
        (pageFunc Mark fromEC2Tags opts page (rest.isEmpty && err.isNone) v).vars
        (pageFunc Mark' fromEC2Tags opts' page (rest.isEmpty && err.isNone) v').vars
      refine ⟨?_, h2⟩
      simp only [markCalls_fetch, markCalls_append, List.map_append, h1]
      simpa [pageFunc] using t1
    · have hout := (pageFuncLoop_out Mark fromEC2Tags opts page.LaunchTemplates v).2 hwf
      have hout' := (pageFuncLoop_out Mark' fromEC2Tags opts' page.LaunchTemplates v').2 hwf
      rw [pagesFrom_cons_panic _ _ _ _ _ _ _ (by simpa [pageFunc] using hout),
        pagesFrom_cons_panic _ _ _ _ _ _ _ (by simpa [pageFunc] using hout')]
      refine ⟨?_, rfl⟩
      simpa [pageFunc] using t1

/-- When no served template has a nil id or name, the recorded results of the `set.Mark`
calls of the paged listing are the answers of the oracle for the served templates,
threaded through the state of the set across pages. -/
theorem sweepPages_answers (err : Option GoError) (i : Nat)
    (pages : List DescribeLaunchTemplatesOutput) (v : SweepVars σ)
    (hwf : ∀ lt ∈ pages.flatMap (fun p => p.LaunchTemplates), lt.hasIdAndName = true) :
    (markCalls (pagesFrom (pageFunc Mark fromEC2Tags opts) err i pages v).calls).map
        (fun c => c.result) =
      markAnswers Mark fromEC2Tags opts (pages.flatMap (fun p => p.LaunchTemplates)) v.set ∧
    (pagesFrom (pageFunc Mark fromEC2Tags opts) err i pages v).vars.set =
      markedSet Mark fromEC2Tags opts (pages.flatMap (fun p => p.LaunchTemplates)) v.set := by
  induction pages generalizing i v with
  | nil => cases err <;> simp [pagesFrom, markAnswers, markedSet]
  | cons page rest ih =>
    rw [mem_templates_cons] at hwf
    obtain ⟨hpage, hrest⟩ := hwf
    have hout := (pageFuncLoop_out Mark fromEC2Tags opts page.LaunchTemplates v).1 hpage
    rw [pagesFrom_cons_ok _ _ _ _ _ _ (by simpa [pageFunc] using hout)]
    obtain ⟨a1, a2⟩ := pageFuncLoop_answers Mark fromEC2Tags opts page.LaunchTemplates v hpage
    obtain ⟨m1, m2⟩ := markAnswers_append Mark fromEC2Tags opts page.LaunchTemplates
      (rest.flatMap (fun p => p.LaunchTemplates)) v.set hpage
    obtain ⟨h1, h2⟩ := ih (i + 1)
      (pageFunc Mark fromEC2Tags opts page (rest.isEmpty && err.isNone) v).vars hrest
    have hset : (pageFunc Mark fromEC2Tags opts page (rest.isEmpty && err.isNone) v).vars.set =
        markedSet Mark fromEC2Tags opts page.LaunchTemplates v.set := a2
    have hres : (markCalls
        (pageFunc Mark fromEC2Tags opts page (rest.isEmpty && err.isNone) v).calls).map
        (fun c => c.result) = markAnswers Mark fromEC2Tags opts page.LaunchTemplates v.set := a1
    constructor
    · simp only [markCalls_fetch, markCalls_append, List.map_append, List.flatMap_cons, m1,
        h1, hset, hres]
    · simp only [List.flatMap_cons, m2, h2, hset]

end Paging

/-! ## The delete loop -/

section DeleteLoop

variable {κ τ : Type}
variable (Delete : κ → DeleteLaunchTemplateInput → κ × Option GoError)

/-- The delete loop issues one request per template, in order; one "delete failed" warning
per failed request; and neither page requests nor `set.Mark` calls. -/
theorem deleteLoop_reading (ts : List launchTemplate) (svc : κ) :
    deleteRequests (deleteLoop Delete ts svc : List (Call τ) × κ).1 = ts.map deleteRequestFor ∧
    deleteFailedWarnings (deleteLoop Delete ts svc : List (Call τ) × κ).1 =
      expectedFailureWarnings ts (deleteAnswers Delete ts svc) ∧
    markCalls (deleteLoop Delete ts svc : List (Call τ) × κ).1 = [] ∧
    fetchedPages (deleteLoop Delete ts svc : List (Call τ) × κ).1 = [] ∧
    ∀ c ∈ (deleteLoop Delete ts svc : List (Call τ) × κ).1, c.isFetchOrMark = false := by
  induction ts generalizing svc with
  | nil => simp [deleteLoop, deleteAnswers, expectedFailureWarnings]
  | cons lt rest ih =>
    obtain ⟨h1, h2, h3, h4, h5⟩ :=
      ih (Delete svc { LaunchTemplateId := some lt.ID, LaunchTemplateName := none }).1
    simp only [deleteLoop, deleteAnswers]
    cases hd : (Delete svc { LaunchTemplateId := some lt.ID, LaunchTemplateName := none }).2 with
    | none =>
      refine ⟨by simp [h1, deleteRequestFor], by simp [h2, expectedFailureWarnings],
        by simp [h3], by simp [h4], ?_⟩
      intro c hc
      simp only [List.mem_cons] at hc
      rcases hc with rfl | hc
      · rfl
      · exact h5 c hc
    | some e =>
      refine ⟨by simp [h1, deleteRequestFor], by simp [h2, expectedFailureWarnings],
        by simp [h3], by simp [h4], ?_⟩
      intro c hc
      simp only [List.mem_cons] at hc
      rcases hc with rfl | rfl | hc
      · rfl
      · rfl
      · exact h5 c hc

/-- There are as many expected "delete failed" messages as failed deletions. -/
theorem expectedFailureWarnings_length (ts : List launchTemplate) (svc : κ) :
    (expectedFailureWarnings ts (deleteAnswers Delete ts svc)).length =
      ((deleteAnswers Delete ts svc).filter (fun a => a.isSome)).length := by
  induction ts generalizing svc with
  | nil => simp [deleteAnswers, expectedFailureWarnings]
  | cons lt rest ih =>
    simp only [deleteAnswers]
    cases hd : (Delete svc { LaunchTemplateId := some lt.ID, LaunchTemplateName := none }).2 <;>
      simp [expectedFailureWarnings, ih]

theorem deleteAnswers_length (ts : List launchTemplate) (svc : κ) :
    (deleteAnswers Delete ts svc).length = ts.length := by
  induction ts generalizing svc with
  | nil => simp [deleteAnswers]
  | cons lt rest ih => simp [deleteAnswers, ih]

end DeleteLoop

/-! ## `MarkAndSweep` -/

section Sweep

variable {σ κ τ : Type}
variable (Mark : σ → Options → launchTemplate → Option Time → τ → σ × Bool)
variable (fromEC2Tags : List ec2Tag → τ)
variable (Delete : κ → DeleteLaunchTemplateInput → κ × Option GoError)

theorem MarkAndSweep_of_nil (listing : Listing) (svc : κ) (opts : Options) (set : σ)
    (h : (sweepListing Mark fromEC2Tags listing opts set).out = .ok none) :
    MarkAndSweep Mark fromEC2Tags Delete listing svc opts set =
      ⟨(sweepListing Mark fromEC2Tags listing opts set).calls ++
          (deleteLoop Delete (sweepListing Mark fromEC2Tags listing opts set).vars.toDelete svc).1,
        (sweepListing Mark fromEC2Tags listing opts set).vars.set,
        (deleteLoop Delete (sweepListing Mark fromEC2Tags listing opts set).vars.toDelete svc
          : List (Call τ) × κ).2,
        .ok none⟩ := by
  simp only [MarkAndSweep, h]

theorem MarkAndSweep_of_err (listing : Listing) (svc : κ) (opts : Options) (set : σ)
    (e : GoError) (h : (sweepListing Mark fromEC2Tags listing opts set).out = .ok (some e)) :
    MarkAndSweep Mark fromEC2Tags Delete listing svc opts set =
      ⟨(sweepListing Mark fromEC2Tags listing opts set).calls,
        (sweepListing Mark fromEC2Tags listing opts set).vars.set, svc, .ok (some e)⟩ := by
  simp only [MarkAndSweep, h]

theorem MarkAndSweep_of_panic (listing : Listing) (svc : κ) (opts : Options) (set : σ)
    (p : Panic) (h : (sweepListing Mark fromEC2Tags listing opts set).out = .error p) :
    MarkAndSweep Mark fromEC2Tags Delete listing svc opts set =
      ⟨(sweepListing Mark fromEC2Tags listing opts set).calls,
        (sweepListing Mark fromEC2Tags listing opts set).vars.set, svc, .error p⟩ := by
  simp only [MarkAndSweep, h]

/-- The three ways the paged listing of `MarkAndSweep` can end. -/
theorem sweepListing_cases (listing : Listing) (opts : Options) (set : σ) :
    (listing.wellFormed ∧
      (sweepListing Mark fromEC2Tags listing opts set).out = .ok listing.err) ∨
    (¬ listing.wellFormed ∧
      (sweepListing Mark fromEC2Tags listing opts set).out = .error .nilDereference) := by
  by_cases hwf : listing.wellFormed
  · exact Or.inl ⟨hwf, ((sweepPages_out Mark fromEC2Tags opts listing.err 0 listing.pages
      { set := set, toDelete := [] }).1 hwf).1⟩
  · exact Or.inr ⟨hwf, (sweepPages_out Mark fromEC2Tags opts listing.err 0 listing.pages
      { set := set, toDelete := [] }).2 hwf⟩

/-- The paged listing of `MarkAndSweep` returns `x` exactly when no served template has a
nil id or name and `x` is the error of the endpoint. -/
theorem sweepListing_ok_iff (listing : Listing) (opts : Options) (set : σ)
    (x : Option GoError) :
    (sweepListing Mark fromEC2Tags listing opts set).out = .ok x ↔
      listing.wellFormed ∧ listing.err = x := by
  rcases sweepListing_cases Mark fromEC2Tags listing opts set with ⟨hwf, h⟩ | ⟨hwf, h⟩
  · rw [h]
    constructor
    · intro hx
      exact ⟨hwf, by simpa using hx⟩
    · rintro ⟨-, rfl⟩
      rfl
  · rw [h]
    constructor
    · intro hx
      cases hx
    · rintro ⟨hw, -⟩
      exact absurd hw hwf

/-- The calls of `MarkAndSweep` are those of the paged listing, followed by calls that are
neither page requests nor `set.Mark` calls. -/
theorem MarkAndSweep_calls (listing : Listing) (svc : κ) (opts : Options) (set : σ) :
    ∃ tail : List (Call τ),
      (MarkAndSweep Mark fromEC2Tags Delete listing svc opts set).calls =
        (sweepListing Mark fromEC2Tags listing opts set).calls ++ tail ∧
      markCalls tail = [] ∧ fetchedPages tail = [] ∧
      (∀ c ∈ tail, c.isFetchOrMark = false) ∧
      (tail ≠ [] → (sweepListing Mark fromEC2Tags listing opts set).out = .ok none) := by
  cases h : (sweepListing Mark fromEC2Tags listing opts set).out with
  | error p =>
    refine ⟨[], ?_, rfl, rfl, by simp, by simp⟩
    rw [MarkAndSweep_of_panic Mark fromEC2Tags Delete listing svc opts set p h]
    simp
  | ok x =>
    cases x with
    | some e =>
      refine ⟨[], ?_, rfl, rfl, by simp, by simp⟩
      rw [MarkAndSweep_of_err Mark fromEC2Tags Delete listing svc opts set e h]
      simp
    | none =>
      obtain ⟨-, -, d3, d4, d5⟩ := deleteLoop_reading (τ := τ) Delete
        (sweepListing Mark fromEC2Tags listing opts set).vars.toDelete svc
      refine ⟨_, ?_, d3, d4, d5, fun _ => rfl⟩
      rw [MarkAndSweep_of_nil Mark fromEC2Tags Delete listing svc opts set h]

/-- The `set.Mark` calls of `MarkAndSweep` are those of its paged listing. -/
theorem MarkAndSweep_markCalls (listing : Listing) (svc : κ) (opts : Options) (set : σ) :
    markCalls (MarkAndSweep Mark fromEC2Tags Delete listing svc opts set).calls =
      markCalls (sweepListing Mark fromEC2Tags listing opts set).calls := by
  obtain ⟨tail, h1, h2, -⟩ := MarkAndSweep_calls Mark fromEC2Tags Delete listing svc opts set
  rw [h1, markCalls_append, h2, List.append_nil]

/-- When no served template has a nil id or name, `MarkAndSweep` calls `set.Mark` once per
served template, in listing order across pages. -/
theorem MarkAndSweep_marks (listing : Listing) (svc : κ) (opts : Options) (set : σ)
    (hwf : listing.wellFormed) :
    List.Forall₂ (marksTemplate fromEC2Tags opts)
      (markCalls (MarkAndSweep Mark fromEC2Tags Delete listing svc opts set).calls)
      listing.templates := by
  rw [MarkAndSweep_markCalls]
  exact sweepPages_marks Mark fromEC2Tags opts listing.err 0 listing.pages
    { set := set, toDelete := [] } hwf

/-- The slice `toDelete` after the paged listing of `MarkAndSweep`. -/
theorem sweepListing_toDelete (listing : Listing) (opts : Options) (set : σ) :
    (sweepListing Mark fromEC2Tags listing opts set).vars.toDelete =
      if opts.DryRun then [] else
        ((markCalls (sweepListing Mark fromEC2Tags listing opts set).calls).filter
          (fun c => c.result)).map (fun c => c.resource) := by
  have h := sweepPages_toDelete Mark fromEC2Tags opts listing.err 0 listing.pages
    { set := set, toDelete := [] }
  simpa [sweepListing, DescribeLaunchTemplatesPages] using h

/-- The `DeleteLaunchTemplate` requests of a run of `MarkAndSweep`: none unless the paged
listing returned nil, and then one per element of `toDelete`. -/
theorem MarkAndSweep_deleteRequests (listing : Listing) (svc : κ) (opts : Options) (set : σ) :
    ((sweepListing Mark fromEC2Tags listing opts set).out = .ok none →
      deleteRequests (MarkAndSweep Mark fromEC2Tags Delete listing svc opts set).calls =
        (sweepListing Mark fromEC2Tags listing opts set).vars.toDelete.map deleteRequestFor) ∧
    ((sweepListing Mark fromEC2Tags listing opts set).out ≠ .ok none →
      deleteRequests (MarkAndSweep Mark fromEC2Tags Delete listing svc opts set).calls = []) := by
  have hq := (sweepPages_quiet Mark fromEC2Tags opts listing.err 0 listing.pages
    { set := set, toDelete := [] }).1
  have hq' : deleteRequests (sweepListing Mark fromEC2Tags listing opts set).calls = [] := hq
  cases h : (sweepListing Mark fromEC2Tags listing opts set).out with
  | error p =>
    rw [MarkAndSweep_of_panic Mark fromEC2Tags Delete listing svc opts set p h]
    simp [hq']
  | ok x =>
    cases x with
    | some e =>
      rw [MarkAndSweep_of_err Mark fromEC2Tags Delete listing svc opts set e h]
      simp [hq']
    | none =>
      rw [MarkAndSweep_of_nil Mark fromEC2Tags Delete listing svc opts set h]
      simp [hq', (deleteLoop_reading (τ := τ) Delete _ svc).1]

/-- Calls that are neither page requests nor `set.Mark` calls contain no page request. -/
theorem fetchedPages_eq_nil_of_forall (cs : List (Call τ))
    (h : ∀ c ∈ cs, c.isFetchOrMark = false) : fetchedPages cs = [] := by
  induction cs with
  | nil => rfl
  | cons c rest ih =>
    have hc := h c (List.mem_cons_self _ _)
    have hrest := ih (fun x hx => h x (List.mem_cons_of_mem _ hx))
    cases c <;> simp_all [Call.isFetchOrMark]

/-- The set after a run of `MarkAndSweep` is the set after its paged listing. -/
theorem MarkAndSweep_set (listing : Listing) (svc : κ) (opts : Options) (set : σ) :
    (MarkAndSweep Mark fromEC2Tags Delete listing svc opts set).set =
      (sweepListing Mark fromEC2Tags listing opts set).vars.set := by
  cases h : (sweepListing Mark fromEC2Tags listing opts set).out with
  | error p => rw [MarkAndSweep_of_panic Mark fromEC2Tags Delete listing svc opts set p h]
  | ok x =>
    cases x with
    | some e => rw [MarkAndSweep_of_err Mark fromEC2Tags Delete listing svc opts set e h]
    | none => rw [MarkAndSweep_of_nil Mark fromEC2Tags Delete listing svc opts set h]

/-- C1. When `opts.DryRun` is false and the paged listing succeeds (the call of line 57
returns nil), `MarkAndSweep` calls `set.Mark` once per listed template, in listing order
across pages; the values these calls return are the answers of the `Set.Mark` oracle for
the listed templates, each call acting on the state of the set left by the previous one;
and the `DeleteLaunchTemplate` requests issued are exactly those for the listed templates
for which the oracle answered true: one request per such listed entry, carrying that
entry's `LaunchTemplateId`, in listing order, and none for a template for which the oracle
answered false.  The set is left in the state after the last `set.Mark` call. -/
theorem MarkAndSweep_deletes_exactly_the_marked (listing : Listing) (svc : κ)
    (opts : Options) (set : σ) (hdry : opts.DryRun = false)
    (hlist : (sweepListing Mark fromEC2Tags listing opts set).out = .ok none) :
    List.Forall₂ (marksTemplate fromEC2Tags opts)
      (markCalls (MarkAndSweep Mark fromEC2Tags Delete listing svc opts set).calls)
      listing.templates ∧
    deleteRequests (MarkAndSweep Mark fromEC2Tags Delete listing svc opts set).calls =
      ((markCalls (MarkAndSweep Mark fromEC2Tags Delete listing svc opts set).calls).filter
        (fun c => c.result)).map (fun c => deleteRequestFor c.resource) ∧
    (markCalls (MarkAndSweep Mark fromEC2Tags Delete listing svc opts set).calls).map
        (fun c => c.result) =
      markAnswers Mark fromEC2Tags opts listing.templates set ∧
    deleteRequests (MarkAndSweep Mark fromEC2Tags Delete listing svc opts set).calls =
      approvedRequests listing.templates
        (markAnswers Mark fromEC2Tags opts listing.templates set) ∧
    (MarkAndSweep Mark fromEC2Tags Delete listing svc opts set).set =
      markedSet Mark fromEC2Tags opts listing.templates set := by
  have hwf := ((sweepListing_ok_iff Mark fromEC2Tags listing opts set none).1 hlist).1
  have hmarks := MarkAndSweep_marks Mark fromEC2Tags Delete listing svc opts set hwf
  obtain ⟨hans, hset⟩ := sweepPages_answers Mark fromEC2Tags opts listing.err 0 listing.pages
    { set := set, toDelete := [] } hwf
  have hans' : (markCalls (MarkAndSweep Mark fromEC2Tags Delete listing svc opts set).calls).map
      (fun c => c.result) = markAnswers Mark fromEC2Tags opts listing.templates set := by
    rw [MarkAndSweep_markCalls]
    exact hans
  have hdel : deleteRequests (MarkAndSweep Mark fromEC2Tags Delete listing svc opts set).calls =
      ((markCalls (MarkAndSweep Mark fromEC2Tags Delete listing svc opts set).calls).filter
        (fun c => c.result)).map (fun c => deleteRequestFor c.resource) := by
    rw [(MarkAndSweep_deleteRequests Mark fromEC2Tags Delete listing svc opts set).1 hlist,
      MarkAndSweep_markCalls, sweepListing_toDelete, hdry]
    simp
  refine ⟨hmarks, hdel, hans', ?_, ?_⟩
  · rw [hdel, approvedRequests_of_marks fromEC2Tags opts _ _ hmarks, hans']
  · rw [MarkAndSweep_set]
    exact hset

/-- C2, as amended. When `opts.DryRun` is true, `MarkAndSweep` issues no
`DeleteLaunchTemplate` request, whatever `set.Mark` returns; its sequence of `set.Mark`
calls (resource, `CreateTime`, tags) is the one of the run with `DryRun` false; and when
no listed template has a nil id or name, there is exactly one `set.Mark` call per listed
template, in listing order. -/
theorem MarkAndSweep_dryRun (listing : Listing) (svc : κ) (opts : Options) (set : σ)
    (hdry : opts.DryRun = true) :
    deleteRequests (MarkAndSweep Mark fromEC2Tags Delete listing svc opts set).calls = [] ∧
    (markCalls (MarkAndSweep Mark fromEC2Tags Delete listing svc opts set).calls).map
        MarkCall.args =
      (markCalls (MarkAndSweep Mark fromEC2Tags Delete listing svc
        { opts with DryRun := false } set).calls).map MarkCall.args ∧
    (listing.wellFormed →
      List.Forall₂ (marksTemplate fromEC2Tags opts)
        (markCalls (MarkAndSweep Mark fromEC2Tags Delete listing svc opts set).calls)
        listing.templates) := by
  refine ⟨?_, ?_, MarkAndSweep_marks Mark fromEC2Tags Delete listing svc opts set⟩
  · by_cases h : (sweepListing Mark fromEC2Tags listing opts set).out = .ok none
    · rw [(MarkAndSweep_deleteRequests Mark fromEC2Tags Delete listing svc opts set).1 h,
        sweepListing_toDelete, hdry]
      simp
    · exact (MarkAndSweep_deleteRequests Mark fromEC2Tags Delete listing svc opts set).2 h
  · rw [MarkAndSweep_markCalls, MarkAndSweep_markCalls]
    exact (sweepPages_two_runs Mark fromEC2Tags opts Mark { opts with DryRun := false }
      rfl rfl listing.err 0 listing.pages { set := set, toDelete := [] }
      { set := set, toDelete := [] }).1

/-- C3. Drain-then-act. In every run of `MarkAndSweep`: when the call at position `i` is a
`DeleteLaunchTemplate` request, the listing has succeeded, the calls before position `i`
contain the request of every page, each once and in order, and every page request and
every `set.Mark` call stands at a position before `i`; the page callback returns true
whenever it returns; and a run that returns has requested every served page once, in
order (and once more when the request after the last page fails). -/
theorem MarkAndSweep_drains_before_deleting (listing : Listing) (svc : κ) (opts : Options)
    (set : σ) :
    (∀ (i : Nat) (c : Call τ),
      (MarkAndSweep Mark fromEC2Tags Delete listing svc opts set).calls[i]? = some c →
      c.isDelete = true →
        listing.err = none ∧
        fetchedPages ((MarkAndSweep Mark fromEC2Tags Delete listing svc opts set).calls.take i) =
          List.range listing.pages.length ∧
        ∀ (j : Nat) (d : Call τ),
          (MarkAndSweep Mark fromEC2Tags Delete listing svc opts set).calls[j]? = some d →
          d.isFetchOrMark = true → j < i) ∧
    (∀ (page : DescribeLaunchTemplatesOutput) (lastPage : Bool) (v : SweepVars σ) (b : Bool),
      (pageFunc Mark fromEC2Tags opts page lastPage v).out = .ok b → b = true) ∧
    (∀ x : Option GoError,
      (MarkAndSweep Mark fromEC2Tags Delete listing svc opts set).out = .ok x →
        fetchedPages (MarkAndSweep Mark fromEC2Tags Delete listing svc opts set).calls =
          List.range' 0 (listing.pages.length + (if listing.err.isSome then 1 else 0))) := by
  obtain ⟨tail, hcalls, -, htf, htail, hne⟩ :=
    MarkAndSweep_calls Mark fromEC2Tags Delete listing svc opts set
  have hquiet := (sweepPages_quiet Mark fromEC2Tags opts listing.err 0 listing.pages
    { set := set, toDelete := [] }).2.2
  have hquiet' : ∀ c ∈ (sweepListing Mark fromEC2Tags listing opts set).calls,
      c.isDelete = false := hquiet
  have hfetch : listing.wellFormed →
      fetchedPages (sweepListing Mark fromEC2Tags listing opts set).calls =
        List.range' 0 (listing.pages.length + (if listing.err.isSome then 1 else 0)) :=
    fun hwf => ((sweepPages_out Mark fromEC2Tags opts listing.err 0 listing.pages
      { set := set, toDelete := [] }).1 hwf).2
  refine ⟨?_, ?_, ?_⟩
  · intro i c hi hc
    rw [hcalls] at hi ⊢
    have hle : (sweepListing Mark fromEC2Tags listing opts set).calls.length ≤ i := by
      by_contra hlt
      push_neg at hlt
      rw [List.getElem?_append_left hlt] at hi
      have hmem := List.getElem?_mem hi
      rw [hquiet' c hmem] at hc
      cases hc
    have hi' := hi
    rw [List.getElem?_append_right hle] at hi'
    have hne' : tail ≠ [] := by
      intro h
      rw [h] at hi'
      simp at hi'
    have hok := hne hne'
    obtain ⟨hwf, herr⟩ := (sweepListing_ok_iff Mark fromEC2Tags listing opts set none).1 hok
    refine ⟨herr, ?_, ?_⟩
    · rw [List.take_append_eq_append_take, List.take_of_length_le hle, fetchedPages_append,
        fetchedPages_eq_nil_of_forall _ (fun x hx => htail x (List.mem_of_mem_take hx)),
        List.append_nil, hfetch hwf, herr, List.range_eq_range']
      simp
    · intro j d hj hd
      by_contra hge
      push_neg at hge
      have hle' : (sweepListing Mark fromEC2Tags listing opts set).calls.length ≤ j :=
        le_trans hle hge
      rw [List.getElem?_append_right hle'] at hj
      have hmem := List.getElem?_mem hj
      rw [htail d hmem] at hd
      cases hd
  · intro page lastPage v b hb
    by_cases hwf : ∀ lt ∈ page.LaunchTemplates, lt.hasIdAndName = true
    · have h := (pageFuncLoop_out Mark fromEC2Tags opts page.LaunchTemplates v).1 hwf
      simp only [pageFunc] at hb
      rw [h] at hb
      cases hb
      rfl
    · have h := (pageFuncLoop_out Mark fromEC2Tags opts page.LaunchTemplates v).2 hwf
      simp only [pageFunc] at hb
      rw [h] at hb
      cases hb
  · intro x hx
    rcases sweepListing_cases Mark fromEC2Tags listing opts set with ⟨hwf, h⟩ | ⟨hwf, h⟩
    · rw [hcalls, fetchedPages_append, htf, List.append_nil, hfetch hwf]
    · rw [MarkAndSweep_of_panic Mark fromEC2Tags Delete listing svc opts set _ h] at hx
      cases hx

/-- C4. Partial-failure isolation. For every list `approved` of templates and every
endpoint (hence every subset of failing deletions), the delete loop requests the deletion
of every template of the list exactly once, in order, whatever fails; it logs exactly one
"delete failed" warning per failed deletion, with that template's ARN and the cause; and a
run of `MarkAndSweep` whose listing succeeded with `toDelete = approved` consists of the
calls of the listing followed by those of the loop, and returns a nil error. -/
theorem MarkAndSweep_isolates_delete_failures (approved : List launchTemplate) (svc : κ) :
    deleteRequests (deleteLoop Delete approved svc : List (Call τ) × κ).1 =
      approved.map deleteRequestFor ∧
    deleteFailedWarnings (deleteLoop Delete approved svc : List (Call τ) × κ).1 =
      expectedFailureWarnings approved (deleteAnswers Delete approved svc) ∧
    (deleteFailedWarnings (deleteLoop Delete approved svc : List (Call τ) × κ).1).length =
      ((deleteAnswers Delete approved svc).filter (fun a => a.isSome)).length ∧
    (deleteAnswers Delete approved svc).length = approved.length ∧
    ∀ (listing : Listing) (opts : Options) (set : σ),
      (sweepListing Mark fromEC2Tags listing opts set).out = .ok none →
      (sweepListing Mark fromEC2Tags listing opts set).vars.toDelete = approved →
        (MarkAndSweep Mark fromEC2Tags Delete listing svc opts set).out = .ok none ∧
        (MarkAndSweep Mark fromEC2Tags Delete listing svc opts set).calls =
          (sweepListing Mark fromEC2Tags listing opts set).calls ++
            (deleteLoop Delete approved svc : List (Call τ) × κ).1 ∧
        deleteRequests (MarkAndSweep Mark fromEC2Tags Delete listing svc opts set).calls =
          approved.map deleteRequestFor ∧
        deleteFailedWarnings (MarkAndSweep Mark fromEC2Tags Delete listing svc opts set).calls =
          expectedFailureWarnings approved (deleteAnswers Delete approved svc) := by
  obtain ⟨d1, d2, -, -, -⟩ := deleteLoop_reading (τ := τ) Delete approved svc
  refine ⟨d1, d2, ?_, deleteAnswers_length Delete approved svc, ?_⟩
  · rw [d2, expectedFailureWarnings_length]
  · intro listing opts set hlist happ
    obtain ⟨q1, q2, -⟩ := sweepPages_quiet Mark fromEC2Tags opts listing.err 0 listing.pages
      { set := set, toDelete := [] }
    have q1' : deleteRequests (sweepListing Mark fromEC2Tags listing opts set).calls = [] := q1
    have q2' : deleteFailedWarnings (sweepListing Mark fromEC2Tags listing opts set).calls = [] :=
      q2
    rw [MarkAndSweep_of_nil Mark fromEC2Tags Delete listing svc opts set hlist, happ]
    refine ⟨rfl, rfl, ?_, ?_⟩
    · simp [q1', d1]
    · simp [q2', d2]

/-- C5. Listing failure is fatal and surfaced. `MarkAndSweep` returns a non-nil error `e`
exactly when the paged listing (the call of line 57) returns the error `e`; that error is
the one of the failed page request; no `DeleteLaunchTemplate` request is then issued,
whatever `set.Mark` returned on the pages received; and when no listed template has a nil
id or name, `MarkAndSweep` returns, with exactly the error of the listing (nil if none). -/
theorem MarkAndSweep_surfaces_listing_error (listing : Listing) (svc : κ) (opts : Options)
    (set : σ) :
    (∀ e : GoError,
      (MarkAndSweep Mark fromEC2Tags Delete listing svc opts set).out = .ok (some e) ↔
        (sweepListing Mark fromEC2Tags listing opts set).out = .ok (some e)) ∧
    (∀ e : GoError,
      (MarkAndSweep Mark fromEC2Tags Delete listing svc opts set).out = .ok (some e) →
        listing.err = some e ∧
        deleteRequests (MarkAndSweep Mark fromEC2Tags Delete listing svc opts set).calls = []) ∧
    (listing.wellFormed →
      (MarkAndSweep Mark fromEC2Tags Delete listing svc opts set).out = .ok listing.err) := by
  have hiff : ∀ x : Option GoError,
      (MarkAndSweep Mark fromEC2Tags Delete listing svc opts set).out = .ok x ↔
        (sweepListing Mark fromEC2Tags listing opts set).out = .ok x := by
    intro x
    cases h : (sweepListing Mark fromEC2Tags listing opts set).out with
    | error p =>
      rw [MarkAndSweep_of_panic Mark fromEC2Tags Delete listing svc opts set p h]
    | ok y =>
      cases y with
      | some e => rw [MarkAndSweep_of_err Mark fromEC2Tags Delete listing svc opts set e h]
      | none => rw [MarkAndSweep_of_nil Mark fromEC2Tags Delete listing svc opts set h]
  refine ⟨fun e => hiff (some e), ?_, ?_⟩
  · intro e he
    have hl := (hiff (some e)).1 he
    refine ⟨((sweepListing_ok_iff Mark fromEC2Tags listing opts set (some e)).1 hl).2, ?_⟩
    apply (MarkAndSweep_deleteRequests Mark fromEC2Tags Delete listing svc opts set).2
    rw [hl]
    simp
  · intro hwf
    exact (hiff listing.err).2
      ((sweepListing_ok_iff Mark fromEC2Tags listing opts set listing.err).2 ⟨hwf, rfl⟩)

end Sweep

/-! ## `ListAll` -/

section ListAllFacts

variable {τ : Type}

theorem mem_keys_mapAssign (m : List (String × Time)) (k : String) (v : Time) (k' : String) :
    k' ∈ (mapAssign m k v).map Prod.fst ↔ k' = k ∨ k' ∈ m.map Prod.fst := by
  simp only [mapAssign, List.map_cons, List.mem_cons]
  constructor
  · rintro (h | h)
    · exact Or.inl h
    · obtain ⟨e, hm, rfl⟩ := List.mem_map.1 h
      exact Or.inr (List.mem_map.2 ⟨e, (List.mem_filter.1 hm).1, rfl⟩)
  · rintro (h | h)
    · exact Or.inl h
    · by_cases hk : k' = k
      · exact Or.inl hk
      · obtain ⟨e, hm, rfl⟩ := List.mem_map.1 h
        refine Or.inr (List.mem_map.2 ⟨e, List.mem_filter.2 ⟨hm, ?_⟩, rfl⟩)
        simpa using hk

/-- The loop of the callback of `ListAll` panics exactly when a template has a nil id or
name; otherwise it adds the ARN of every template of the page to the keys of the set. -/
theorem listAllLoop_spec (opts : Options) (now : Time) (ts : List ec2LaunchTemplate) (s : Set) :
    ((∀ lt ∈ ts, lt.hasIdAndName = true) →
      (listAllLoop opts now ts s).2 = .ok () ∧
      ∀ k, k ∈ (listAllLoop opts now ts s).1.keys ↔
        k ∈ s.keys ∨ k ∈ ts.filterMap (listedARN opts)) ∧
    ((¬ ∀ lt ∈ ts, lt.hasIdAndName = true) →
      (listAllLoop opts now ts s).2 = .error .nilDereference) := by
  induction ts generalizing s with
  | nil => simp [listAllLoop]
  | cons lt rest ih =>
    cases hid : lt.LaunchTemplateId with
    | none => simp [listAllLoop, hid, ec2LaunchTemplate.hasIdAndName]
    | some id =>
      cases hname : lt.LaunchTemplateName with
      | none => simp [listAllLoop, hid, hname, ec2LaunchTemplate.hasIdAndName]
      | some name =>
        have hlt : lt.hasIdAndName = true := by
          simp [ec2LaunchTemplate.hasIdAndName, hid, hname]
        obtain ⟨h1, h2⟩ := ih { s with firstSeen := (mapAssign s.firstSeen (launchTemplate.ARN
          { Account := opts.Account, Region := opts.Region, ID := id, Name := name }) now) }
        simp only [listAllLoop, hid, hname, List.forall_mem_cons, hlt, true_and]
        refine ⟨fun hrest => ⟨(h1 hrest).1, fun k => ?_⟩, h2⟩
        rw [(h1 hrest).2 k]
        have harn : listedARN opts lt = some (launchTemplate.ARN
            { Account := opts.Account, Region := opts.Region, ID := id, Name := name }) := by
          simp [listedARN, hid, launchTemplate.ARN]
        rw [List.filterMap_cons_some harn]
        simp only [Set.keys, mem_keys_mapAssign, List.mem_cons]
        tauto

/-- The paged listing of `ListAll` returns exactly when no served template has a nil id or
name; it then returns the error of the endpoint, and the keys of the set are the keys it
had before together with the ARNs of all served templates. -/
theorem listAllPages_spec (timeNow : Nat → Time) (opts : Options) (err : Option GoError)
    (i : Nat) (pages : List DescribeLaunchTemplatesOutput) (v : ListVars) :
    ((∀ lt ∈ pages.flatMap (fun p => p.LaunchTemplates), lt.hasIdAndName = true) →
      (pagesFrom (τ := τ) (listAllFunc timeNow opts) err i pages v).out = .ok err ∧
      ∀ k, k ∈ (pagesFrom (τ := τ) (listAllFunc timeNow opts) err i pages v).vars.set.keys ↔
        k ∈ v.set.keys ∨
          k ∈ (pages.flatMap (fun p => p.LaunchTemplates)).filterMap (listedARN opts)) ∧
    ((¬ ∀ lt ∈ pages.flatMap (fun p => p.LaunchTemplates), lt.hasIdAndName = true) →
      (pagesFrom (τ := τ) (listAllFunc timeNow opts) err i pages v).out =
        .error .nilDereference) := by
  induction pages generalizing i v with
  | nil => cases err <;> simp [pagesFrom]
  | cons page rest ih =>
    rw [mem_templates_cons]
    obtain ⟨l1, l2⟩ := listAllLoop_spec opts (timeNow v.ticks) page.LaunchTemplates v.set
    by_cases hwf : ∀ lt ∈ page.LaunchTemplates, lt.hasIdAndName = true
    · obtain ⟨lo, lk⟩ := l1 hwf
      have hout : (listAllFunc (τ := τ) timeNow opts page (rest.isEmpty && err.isNone) v).out =
          .ok true := by
        simp only [listAllFunc, lo]
      have hvars : (listAllFunc (τ := τ) timeNow opts page (rest.isEmpty && err.isNone) v).vars =
          { set := (listAllLoop opts (timeNow v.ticks) page.LaunchTemplates v.set).1,
            ticks := v.ticks + 1 } := by
        simp only [listAllFunc, lo]
      rw [pagesFrom_cons_ok _ _ _ _ _ _ hout, hvars]
      obtain ⟨h1, h2⟩ := ih (i + 1)
        { set := (listAllLoop opts (timeNow v.ticks) page.LaunchTemplates v.set).1,
          ticks := v.ticks + 1 }
      constructor
      · rintro ⟨-, hrest⟩
        refine ⟨(h1 hrest).1, fun k => ?_⟩
        rw [(h1 hrest).2 k, lk k, List.flatMap_cons, List.filterMap_append, List.mem_append]
        tauto
      · intro hbad
        exact h2 (fun hrest => hbad ⟨hwf, hrest⟩)
    · have hout : (listAllFunc (τ := τ) timeNow opts page (rest.isEmpty && err.isNone) v).out =
          .error .nilDereference := by
        simp only [listAllFunc, l2 hwf]
      rw [pagesFrom_cons_panic _ _ _ _ _ _ _ hout]
      constructor
      · rintro ⟨h, -⟩
        exact absurd h hwf
      · intro _
        rfl

/-- The two ways the paged listing of `ListAll` can end. -/
theorem listAllListing_cases (timeNow : Nat → Time) (listing : Listing) (opts : Options) :
    (listing.wellFormed ∧
      (listAllListing (τ := τ) timeNow listing opts).out = .ok listing.err ∧
      ∀ k, k ∈ (listAllListing (τ := τ) timeNow listing opts).vars.set.keys ↔
        k ∈ listedARNs opts listing) ∨
    (¬ listing.wellFormed ∧
      (listAllListing (τ := τ) timeNow listing opts).out = .error .nilDereference) := by
  obtain ⟨h1, h2⟩ := listAllPages_spec (τ := τ) timeNow opts listing.err 0 listing.pages
    { set := NewSet 0, ticks := 0 }
  by_cases hwf : listing.wellFormed
  · refine Or.inl ⟨hwf, (h1 hwf).1, fun k => ?_⟩
    have := (h1 hwf).2 k
    simpa [NewSet, Set.keys, listedARNs, Listing.templates] using this
  · exact Or.inr ⟨hwf, h2 hwf⟩

/-- The resource keys of `set.Mark` calls made for a list of templates are the ARNs of
these templates. -/
theorem resourceKeys_of_marks (fromEC2Tags : List ec2Tag → τ) (opts : Options)
    (cs : List (MarkCall τ)) (ts : List ec2LaunchTemplate)
    (h : List.Forall₂ (marksTemplate fromEC2Tags opts) cs ts) :
    cs.map (fun c => c.resource.ResourceKey) = ts.filterMap (listedARN opts) := by
  induction h with
  | nil => rfl
  | @cons c lt cs' ts' hc _ ih =>
    obtain ⟨-, ha, hr, hid, -, -, -⟩ := hc
    have harn : listedARN opts lt = some c.resource.ResourceKey := by
      simp [listedARN, ← hid, launchTemplate.ResourceKey, launchTemplate.ARN, ha, hr]
    rw [List.filterMap_cons_some harn, List.map_cons, ih]

end ListAllFacts

section ListAllClaims

variable {σ κ τ : Type}
variable (Mark : σ → Options → launchTemplate → Option Time → τ → σ × Bool)
variable (fromEC2Tags : List ec2Tag → τ)
variable (Delete : κ → DeleteLaunchTemplateInput → κ × Option GoError)

theorem ListAll_of_ok (timeNow : Nat → Time) (quote : String → String) (listing : Listing)
    (opts : Options) (err : Option GoError)
    (h : (listAllListing (τ := τ) timeNow listing opts).out = .ok err) :
    ListAll (τ := τ) timeNow quote listing opts =
      ⟨(listAllListing (τ := τ) timeNow listing opts).calls,
        (listAllListing (τ := τ) timeNow listing opts).vars.set,
        .ok (some (listAllListing (τ := τ) timeNow listing opts).vars.set,
          Wrapf err (listAllMessage quote opts))⟩ := by
  simp only [ListAll, h]

theorem ListAll_of_panic (timeNow : Nat → Time) (quote : String → String) (listing : Listing)
    (opts : Options) (p : Panic)
    (h : (listAllListing (τ := τ) timeNow listing opts).out = .error p) :
    ListAll (τ := τ) timeNow quote listing opts =
      ⟨(listAllListing (τ := τ) timeNow listing opts).calls,
        (listAllListing (τ := τ) timeNow listing opts).vars.set, .error p⟩ := by
  simp only [ListAll, h]

/-- What `ListAll` returns, when it returns. -/
theorem ListAll_returns (timeNow : Nat → Time) (quote : String → String) (listing : Listing)
    (opts : Options) (s : Option Set) (e : Option GoError)
    (h : (ListAll (τ := τ) timeNow quote listing opts).out = .ok (s, e)) :
    listing.wellFormed ∧
    (listAllListing (τ := τ) timeNow listing opts).out = .ok listing.err ∧
    e = Wrapf listing.err (listAllMessage quote opts) ∧
    ∃ set, s = some set ∧ ∀ k, k ∈ set.keys ↔ k ∈ listedARNs opts listing := by
  rcases listAllListing_cases (τ := τ) timeNow listing opts with ⟨hwf, ho, hk⟩ | ⟨-, ho⟩
  · rw [ListAll_of_ok timeNow quote listing opts listing.err ho] at h
    simp only [Except.ok.injEq, Prod.mk.injEq] at h
    exact ⟨hwf, ho, h.2.symm, _, h.1.symm, hk⟩
  · rw [ListAll_of_panic timeNow quote listing opts _ ho] at h
    cases h

/-- C6. `ListAll` and `MarkAndSweep` use the same identities. Whenever `ListAll` returns a
set for a listing (in particular when the listing succeeds), the keys of that set are
exactly the `ResourceKey()` values of the resources that `MarkAndSweep` passes to
`set.Mark` for the same listing and options; these are the ARNs of all listed templates,
page after page, built from the region, the account and the id only. -/
theorem ListAll_identities_match_MarkAndSweep (timeNow : Nat → Time) (quote : String → String)
    (listing : Listing) (svc : κ) (opts : Options) (set : σ) (s : Set) (e : Option GoError)
    (h : (ListAll (τ := τ) timeNow quote listing opts).out = .ok (some s, e)) :
    (∀ k, k ∈ s.keys ↔
      k ∈ (markCalls (MarkAndSweep Mark fromEC2Tags Delete listing svc opts set).calls).map
        (fun c => c.resource.ResourceKey)) ∧
    (markCalls (MarkAndSweep Mark fromEC2Tags Delete listing svc opts set).calls).map
        (fun c => c.resource.ResourceKey) = listedARNs opts listing ∧
    (listedARNs opts listing).map some = listing.templates.map (listedARN opts) := by
  obtain ⟨hwf, -, -, set', hs, hk⟩ := ListAll_returns timeNow quote listing opts _ _ h
  cases hs
  have hm := resourceKeys_of_marks fromEC2Tags opts _ _
    (MarkAndSweep_marks Mark fromEC2Tags Delete listing svc opts set hwf)
  refine ⟨fun k => ?_, hm, ?_⟩
  · rw [hm]
    exact hk k
  · simp only [listedARNs]
    have hall : ∀ lt ∈ listing.templates, lt.hasIdAndName = true := hwf
    generalize listing.templates = ts at hall
    induction ts with
    | nil => rfl
    | cons lt rest ih =>
      obtain ⟨id, name, hid, -⟩ := (hasIdAndName_iff lt).1 (hall lt (List.mem_cons_self _ _))
      have harn : listedARN opts lt = some ("arn:aws:ec2:" ++ opts.Region ++ ":" ++
          opts.Account ++ ":launch-template/" ++ id) := by
        simp [listedARN, hid]
      rw [List.filterMap_cons_some harn, List.map_cons, List.map_cons, harn,
        ih (fun x hx => hall x (List.mem_cons_of_mem _ hx))]

/-- C9. `ListAll` returns a nil error if and only if the paged listing (the call of
line 79) succeeds, although the result of the listing is wrapped unconditionally.
Whenever `ListAll` returns, its error is nil if and only if no page request failed; when
the request after the served pages failed with `cause`, the error is the `Wrapf` of that
cause, whose message is `"couldn't list launch templates for "` followed by the quoted
account, `" in "`, the quoted region, `": "` and the message of the cause; in both cases
the returned set pointer is not nil and the keys of the set are the ARNs of the templates
of the served pages. And `ListAll` returns whenever no listed template has a nil id or
name. -/
theorem ListAll_error_iff_listing_fails (timeNow : Nat → Time) (quote : String → String)
    (listing : Listing) (opts : Options) :
    ((∃ s, (ListAll (τ := τ) timeNow quote listing opts).out = .ok (s, none)) ↔
      (listAllListing (τ := τ) timeNow listing opts).out = .ok none) ∧
    (∀ (s : Option Set) (e : Option GoError),
      (ListAll (τ := τ) timeNow quote listing opts).out = .ok (s, e) →
        (e = none ↔ listing.err = none) ∧
        (∀ cause, listing.err = some cause →
          ∃ w, e = some w ∧ w.Cause = some cause ∧
            w.Error = "couldn't list launch templates for " ++ quote opts.Account ++ " in " ++
              quote opts.Region ++ ": " ++ cause.Error) ∧
        ∃ set, s = some set ∧ ∀ k, k ∈ set.keys ↔ k ∈ listedARNs opts listing) ∧
    (listing.wellFormed →
      ∃ set, (ListAll (τ := τ) timeNow quote listing opts).out =
        .ok (some set, Wrapf listing.err (listAllMessage quote opts))) := by
  refine ⟨⟨?_, ?_⟩, ?_, ?_⟩
  · rintro ⟨s, h⟩
    obtain ⟨-, ho, he, -⟩ := ListAll_returns timeNow quote listing opts s none h
    rw [ho]
    cases herr : listing.err with
    | none => rfl
    | some c =>
      rw [herr] at he
      simp [Wrapf] at he
  · intro h
    exact ⟨_, by rw [ListAll_of_ok timeNow quote listing opts none h]; rfl⟩
  · intro s e h
    obtain ⟨-, -, he, hset⟩ := ListAll_returns timeNow quote listing opts s e h
    refine ⟨?_, ?_, hset⟩
    · rw [he]
      cases listing.err <;> simp [Wrapf]
    · intro cause hc
      rw [he, hc]
      exact ⟨_, rfl, rfl, rfl⟩
  · intro hwf
    rcases listAllListing_cases (τ := τ) timeNow listing opts with ⟨-, ho, -⟩ | ⟨hbad, -⟩
    · exact ⟨_, by rw [ListAll_of_ok timeNow quote listing opts listing.err ho]⟩
    · exact absurd hwf hbad

/-- C10. If every template on every listed page has a non-nil `LaunchTemplateId` and a
non-nil `LaunchTemplateName`, then `MarkAndSweep` and `ListAll` both return (no nil
dereference), and every template's `CreateTime` and tags, nil or not, are passed on to
`set.Mark`. Conversely, on the listing `nilNameListing`, which has a template with an id
and a nil name, both operations panic with a nil dereference. -/
theorem no_nil_dereference_when_ids_and_names_present (timeNow : Nat → Time)
    (quote : String → String) (listing : Listing) (svc : κ) (opts : Options) (set : σ)
    (hwf : listing.wellFormed) :
    ((MarkAndSweep Mark fromEC2Tags Delete listing svc opts set).out = .ok listing.err ∧
      (∃ s, (ListAll (τ := τ) timeNow quote listing opts).out =
        .ok (some s, Wrapf listing.err (listAllMessage quote opts))) ∧
      List.Forall₂ (marksTemplate fromEC2Tags opts)
        (markCalls (MarkAndSweep Mark fromEC2Tags Delete listing svc opts set).calls)
        listing.templates) ∧
    ((∃ lt ∈ nilNameListing.templates,
        lt.LaunchTemplateId.isSome = true ∧ lt.LaunchTemplateName = none) ∧
      (MarkAndSweep Mark fromEC2Tags Delete nilNameListing svc opts set).out =
        .error .nilDereference ∧
      (ListAll (τ := τ) timeNow quote nilNameListing opts).out = .error .nilDereference) := by
  have hbad : ¬ nilNameListing.wellFormed := by decide
  refine ⟨⟨?_, ?_, MarkAndSweep_marks Mark fromEC2Tags Delete listing svc opts set hwf⟩,
    ⟨?_, ?_, ?_⟩⟩
  · rcases sweepListing_cases Mark fromEC2Tags listing opts set with ⟨-, h⟩ | ⟨hb, -⟩
    · cases herr : listing.err with
      | none =>
        rw [herr] at h
        rw [MarkAndSweep_of_nil Mark fromEC2Tags Delete listing svc opts set h]
      | some e =>
        rw [herr] at h
        rw [MarkAndSweep_of_err Mark fromEC2Tags Delete listing svc opts set e h]
    · exact absurd hwf hb
  · rcases listAllListing_cases (τ := τ) timeNow listing opts with ⟨-, ho, -⟩ | ⟨hb, -⟩
    · exact ⟨_, by rw [ListAll_of_ok timeNow quote listing opts listing.err ho]⟩
    · exact absurd hwf hb
  · exact ⟨⟨some 20, some "lt-2", none, []⟩, by decide, rfl, rfl⟩
  · rcases sweepListing_cases Mark fromEC2Tags nilNameListing opts set with ⟨hw, -⟩ | ⟨-, h⟩
    · exact absurd hw hbad
    · rw [MarkAndSweep_of_panic Mark fromEC2Tags Delete nilNameListing svc opts set _ h]
  · rcases listAllListing_cases (τ := τ) timeNow nilNameListing opts with ⟨hw, -, -⟩ | ⟨-, h⟩
    · exact absurd hw hbad
    · rw [ListAll_of_panic timeNow quote nilNameListing opts _ h]

end ListAllClaims

/-! ## Identities -/

section Identity

/-- Two lists that agree up to and including their first `':'` have the same part before
it and the same part after it. -/
theorem split_at_first_colon (a c b d : List Char) (ha : ':' ∉ a) (hc : ':' ∉ c)
    (h : a ++ ':' :: b = c ++ ':' :: d) : a = c ∧ b = d := by
  induction a generalizing c with
  | nil =>
    cases c with
    | nil => exact ⟨rfl, by simpa using h⟩
    | cons y c' =>
      simp only [List.nil_append, List.cons_append, List.cons.injEq] at h
      exact absurd (List.mem_cons.2 (Or.inl h.1)) hc
  | cons x a' ih =>
    cases c with
    | nil =>
      simp only [List.nil_append, List.cons_append, List.cons.injEq] at h
      exact absurd (List.mem_cons.2 (Or.inl h.1.symm)) ha
    | cons y c' =>
      simp only [List.cons_append, List.cons.injEq] at h
      obtain ⟨h1, h2⟩ := ih c' (fun hm => ha (List.mem_cons_of_mem _ hm))
        (fun hm => hc (List.mem_cons_of_mem _ hm)) h.2
      exact ⟨by rw [h.1, h1], h2⟩

/-- The characters of an ARN. -/
theorem ARN_data (lt : launchTemplate) :
    lt.ARN.data = "arn:aws:ec2:".data ++ (lt.Region.data ++ ':' ::
      (lt.Account.data ++ ':' :: ("launch-template/".data ++ lt.ID.data))) := by
  simp only [launchTemplate.ARN, String.data_append, List.append_assoc]
  rfl

/-- C8. Identity is stable and encodes the resource kind: `ARN()` is
`"arn:aws:ec2:" ++ Region ++ ":" ++ Account ++ ":launch-template/" ++ ID`, `ResourceKey()`
is the same string, and two `launchTemplate` values with equal `Account`, `Region` and
`ID` have the same identity, whatever their `Name`. -/
theorem ARN_is_stable (lt : launchTemplate) :
    lt.ARN = "arn:aws:ec2:" ++ lt.Region ++ ":" ++ lt.Account ++ ":launch-template/" ++ lt.ID ∧
    lt.ResourceKey = lt.ARN ∧
    ∀ name : String,
      ({ lt with Name := name } : launchTemplate).ARN = lt.ARN ∧
      ({ lt with Name := name } : launchTemplate).ResourceKey = lt.ResourceKey :=
  ⟨rfl, rfl, fun _ => ⟨rfl, rfl⟩⟩

/-- C7, as stated, fails: two `launchTemplate` values with different
`(Account, Region, ID)` and the same ARN and resource key. -/
theorem ARN_collision :
    ((⟨"c", "a:b", "x", "n"⟩ : launchTemplate).Account,
      (⟨"c", "a:b", "x", "n"⟩ : launchTemplate).Region,
      (⟨"c", "a:b", "x", "n"⟩ : launchTemplate).ID) ≠
    ((⟨"b:c", "a", "x", "n"⟩ : launchTemplate).Account,
      (⟨"b:c", "a", "x", "n"⟩ : launchTemplate).Region,
      (⟨"b:c", "a", "x", "n"⟩ : launchTemplate).ID) ∧
    (⟨"c", "a:b", "x", "n"⟩ : launchTemplate).ARN = (⟨"b:c", "a", "x", "n"⟩ : launchTemplate).ARN ∧
    (⟨"c", "a:b", "x", "n"⟩ : launchTemplate).ResourceKey =
      (⟨"b:c", "a", "x", "n"⟩ : launchTemplate).ResourceKey := by
  decide

/-- C7, as amended. For every two `launchTemplate` values whose `Region` and `Account`
contain no `':'` and whose `(Account, Region, ID)` triples differ, `ARN()` and
`ResourceKey()` return different strings. -/
theorem ARN_injective_without_colons (a b : launchTemplate)
    (har : ':' ∉ a.Region.toList) (haa : ':' ∉ a.Account.toList)
    (hbr : ':' ∉ b.Region.toList) (hba : ':' ∉ b.Account.toList)
    (hne : (a.Account, a.Region, a.ID) ≠ (b.Account, b.Region, b.ID)) :
    a.ARN ≠ b.ARN ∧ a.ResourceKey ≠ b.ResourceKey := by
  have key : a.ARN ≠ b.ARN := by
    intro h
    have hd : a.ARN.data = b.ARN.data := congrArg String.data h
    rw [ARN_data, ARN_data] at hd
    have h1 := List.append_cancel_left hd
    obtain ⟨hr, h2⟩ := split_at_first_colon _ _ _ _ har hbr h1
    obtain ⟨hacc, h3⟩ := split_at_first_colon _ _ _ _ haa hba h2
    have hid := List.append_cancel_left h3
    apply hne
    rw [String.ext hr, String.ext hacc, String.ext hid]
  exact ⟨key, key⟩

/-- A run of the amended C7 on two templates of one scope. -/
theorem ARN_injective_without_colons_witness :
    (':' ∉ "us-east-1".toList ∧ ':' ∉ "123".toList ∧
      (("123", "us-east-1", "lt-1") : String × String × String) ≠ ("123", "us-east-1", "lt-2")) ∧
    ((⟨"123", "us-east-1", "lt-1", "a"⟩ : launchTemplate).ARN ≠
        (⟨"123", "us-east-1", "lt-2", "a"⟩ : launchTemplate).ARN ∧
      (⟨"123", "us-east-1", "lt-1", "a"⟩ : launchTemplate).ResourceKey ≠
        (⟨"123", "us-east-1", "lt-2", "a"⟩ : launchTemplate).ResourceKey) :=
  ⟨⟨by decide, by decide, by decide⟩,
    ARN_injective_without_colons ⟨"123", "us-east-1", "lt-1", "a"⟩
      ⟨"123", "us-east-1", "lt-2", "a"⟩ (by decide) (by decide) (by decide) (by decide)
      (by decide)⟩

end Identity

/-! ## Runs on concrete inputs -/

section Runs

/-- The sample run without dry-run deletes the five approved templates. -/
theorem sampleRun_deleteRequests :
    deleteRequests (MarkAndSweep sampleMark (fun ts => ts) sampleDelete sampleListing 0
      (sampleOpts false) 0).calls = sampleApproved.map deleteRequestFor := by
  rfl

/-- C1 on the sample listing: the oracle approves all templates but `"lt-young"`, and
the five approved ones are deleted, in listing order. -/
theorem MarkAndSweep_deletes_exactly_the_marked_witness :
    (sampleOpts false).DryRun = false ∧
    (sweepListing sampleMark (fun ts => ts) sampleListing (sampleOpts false) 0).out = .ok none ∧
    markAnswers sampleMark (fun ts => ts) (sampleOpts false) sampleListing.templates 0 =
      [true, true, false, true, true, true] ∧
    approvedRequests sampleListing.templates
        (markAnswers sampleMark (fun ts => ts) (sampleOpts false) sampleListing.templates 0) =
      sampleApproved.map deleteRequestFor ∧
    (List.Forall₂ (marksTemplate (fun ts => ts) (sampleOpts false))
      (markCalls (MarkAndSweep sampleMark (fun ts => ts) sampleDelete sampleListing 0
        (sampleOpts false) 0).calls)
      sampleListing.templates ∧
    deleteRequests (MarkAndSweep sampleMark (fun ts => ts) sampleDelete sampleListing 0
        (sampleOpts false) 0).calls =
      ((markCalls (MarkAndSweep sampleMark (fun ts => ts) sampleDelete sampleListing 0
        (sampleOpts false) 0).calls).filter
        (fun c => c.result)).map (fun c => deleteRequestFor c.resource) ∧
    (markCalls (MarkAndSweep sampleMark (fun ts => ts) sampleDelete sampleListing 0
        (sampleOpts false) 0).calls).map (fun c => c.result) =
      markAnswers sampleMark (fun ts => ts) (sampleOpts false) sampleListing.templates 0 ∧
    deleteRequests (MarkAndSweep sampleMark (fun ts => ts) sampleDelete sampleListing 0
        (sampleOpts false) 0).calls =
      approvedRequests sampleListing.templates
        (markAnswers sampleMark (fun ts => ts) (sampleOpts false) sampleListing.templates 0) ∧
    (MarkAndSweep sampleMark (fun ts => ts) sampleDelete sampleListing 0
        (sampleOpts false) 0).set =
      markedSet sampleMark (fun ts => ts) (sampleOpts false) sampleListing.templates 0) :=
  ⟨rfl, rfl, by decide, by decide,
    MarkAndSweep_deletes_exactly_the_marked sampleMark (fun ts => ts) sampleDelete
      sampleListing 0 (sampleOpts false) 0 rfl rfl⟩

/-- C2, as stated, fails: in a dry run on `nilNameListing`, which lists two templates,
`set.Mark` is called once only, so not once for each listed template. -/
theorem MarkAndSweep_dryRun_counterexample :
    (sampleOpts true).DryRun = true ∧
    nilNameListing.templates.length = 2 ∧
    (markCalls (MarkAndSweep sampleMark (fun ts => ts) sampleDelete nilNameListing 0
      (sampleOpts true) 0).calls).length = 1 ∧
    ¬ List.Forall₂ (marksTemplate (fun ts => ts) (sampleOpts true))
      (markCalls (MarkAndSweep sampleMark (fun ts => ts) sampleDelete nilNameListing 0
        (sampleOpts true) 0).calls)
      nilNameListing.templates := by
  refine ⟨rfl, rfl, rfl, fun h => ?_⟩
  have hlen := h.length_eq
  have h1 : (markCalls (MarkAndSweep sampleMark (fun ts => ts) sampleDelete nilNameListing 0
      (sampleOpts true) 0).calls).length = 1 := rfl
  have h2 : nilNameListing.templates.length = 2 := rfl
  omega

/-- C2, as amended, on the sample listing. -/
theorem MarkAndSweep_dryRun_witness :
    (sampleOpts true).DryRun = true ∧ sampleListing.wellFormed ∧
    deleteRequests (MarkAndSweep sampleMark (fun ts => ts) sampleDelete sampleListing 0
      (sampleOpts true) 0).calls = [] ∧
    (markCalls (MarkAndSweep sampleMark (fun ts => ts) sampleDelete sampleListing 0
      (sampleOpts true) 0).calls).map MarkCall.args =
      (markCalls (MarkAndSweep sampleMark (fun ts => ts) sampleDelete sampleListing 0
        { sampleOpts true with DryRun := false } 0).calls).map MarkCall.args ∧
    List.Forall₂ (marksTemplate (fun ts => ts) (sampleOpts true))
      (markCalls (MarkAndSweep sampleMark (fun ts => ts) sampleDelete sampleListing 0
        (sampleOpts true) 0).calls)
      sampleListing.templates :=
  have h := MarkAndSweep_dryRun sampleMark (fun ts => ts) sampleDelete sampleListing 0
    (sampleOpts true) 0 rfl
  ⟨rfl, by decide, h.1, h.2.1, h.2.2 (by decide)⟩

/-- C3 on the sample run: the call at position 13 is the first deletion. -/
theorem MarkAndSweep_drains_before_deleting_witness :
    (MarkAndSweep sampleMark (fun ts => ts) sampleDelete sampleListing 0
      (sampleOpts false) 0).calls[13]? =
      some (.delete (deleteRequestFor ⟨"123", "us-east-1", "lt-1", "a"⟩)) ∧
    (sampleListing.err = none ∧
      fetchedPages ((MarkAndSweep sampleMark (fun ts => ts) sampleDelete sampleListing 0
        (sampleOpts false) 0).calls.take 13) = List.range sampleListing.pages.length ∧
      ∀ (j : Nat) (d : Call (List ec2Tag)),
        (MarkAndSweep sampleMark (fun ts => ts) sampleDelete sampleListing 0
          (sampleOpts false) 0).calls[j]? = some d →
        d.isFetchOrMark = true → j < 13) :=
  ⟨rfl, (MarkAndSweep_drains_before_deleting sampleMark (fun ts => ts) sampleDelete
    sampleListing 0 (sampleOpts false) 0).1 13 _ rfl rfl⟩

/-- C4 on the sample run: five approved templates, the deletion of the third fails; all
five deletions are attempted, one failure is logged, and the result is nil. -/
theorem MarkAndSweep_isolates_delete_failures_witness :
    (sweepListing sampleMark (fun ts => ts) sampleListing (sampleOpts false) 0).out = .ok none ∧
    (sweepListing sampleMark (fun ts => ts) sampleListing (sampleOpts false) 0).vars.toDelete =
      sampleApproved ∧
    deleteAnswers sampleDelete sampleApproved 0 =
      [none, none, some (.base "in use"), none, none] ∧
    (MarkAndSweep sampleMark (fun ts => ts) sampleDelete sampleListing 0
      (sampleOpts false) 0).out = .ok none ∧
    deleteRequests (MarkAndSweep sampleMark (fun ts => ts) sampleDelete sampleListing 0
      (sampleOpts false) 0).calls = sampleApproved.map deleteRequestFor ∧
    deleteFailedWarnings (MarkAndSweep sampleMark (fun ts => ts) sampleDelete sampleListing 0
      (sampleOpts false) 0).calls =
      ["arn:aws:ec2:us-east-1:123:launch-template/lt-3: delete failed: in use"] :=
  have h := (MarkAndSweep_isolates_delete_failures sampleMark (fun ts => ts) sampleDelete
    sampleApproved 0).2.2.2.2 sampleListing (sampleOpts false) 0 rfl rfl
  ⟨rfl, rfl, by decide, h.1, h.2.2.1, h.2.2.2.trans (by decide)⟩

/-- C5 on the failing listing: the error of the listing is returned, and nothing is
deleted although `set.Mark` approved five templates. -/
theorem MarkAndSweep_surfaces_listing_error_witness :
    failingListing.wellFormed ∧
    (MarkAndSweep sampleMark (fun ts => ts) sampleDelete failingListing 0
      (sampleOpts false) 0).out = .ok (some (.base "throttled")) ∧
    ((markCalls (MarkAndSweep sampleMark (fun ts => ts) sampleDelete failingListing 0
      (sampleOpts false) 0).calls).filter (fun c => c.result)).length = 5 ∧
    failingListing.err = some (.base "throttled") ∧
    deleteRequests (MarkAndSweep sampleMark (fun ts => ts) sampleDelete failingListing 0
      (sampleOpts false) 0).calls = [] :=
  have h := MarkAndSweep_surfaces_listing_error sampleMark (fun ts => ts) sampleDelete
    failingListing 0 (sampleOpts false) 0
  ⟨by decide, h.2.2 (by decide), rfl, (h.2.1 _ (h.2.2 (by decide))).1,
    (h.2.1 _ (h.2.2 (by decide))).2⟩

/-- C6 on the sample listing. -/
theorem ListAll_identities_match_MarkAndSweep_witness :
    (ListAll (τ := List ec2Tag) sampleClock sampleQuote sampleListing (sampleOpts false)).out =
      .ok (some (ListAll (τ := List ec2Tag) sampleClock sampleQuote sampleListing
        (sampleOpts false)).set, none) ∧
    (ListAll (τ := List ec2Tag) sampleClock sampleQuote sampleListing (sampleOpts false)).set.keys =
      ["arn:aws:ec2:us-east-1:123:launch-template/lt-5",
       "arn:aws:ec2:us-east-1:123:launch-template/lt-4",
       "arn:aws:ec2:us-east-1:123:launch-template/lt-3",
       "arn:aws:ec2:us-east-1:123:launch-template/lt-young",
       "arn:aws:ec2:us-east-1:123:launch-template/lt-2",
       "arn:aws:ec2:us-east-1:123:launch-template/lt-1"] ∧
    ∀ k, k ∈ (ListAll (τ := List ec2Tag) sampleClock sampleQuote sampleListing
        (sampleOpts false)).set.keys ↔
      k ∈ (markCalls (MarkAndSweep sampleMark (fun ts => ts) sampleDelete sampleListing 0
        (sampleOpts false) 0).calls).map (fun c => c.resource.ResourceKey) :=
  ⟨rfl, by decide, (ListAll_identities_match_MarkAndSweep sampleMark (fun ts => ts) sampleDelete
    sampleClock sampleQuote sampleListing 0 (sampleOpts false) 0 _ none rfl).1⟩

/-- C9 on the failing listing: the error wraps the cause, and the set is returned. -/
theorem ListAll_error_iff_listing_fails_witness :
    failingListing.wellFormed ∧
    (∃ set, (ListAll (τ := List ec2Tag) sampleClock sampleQuote failingListing
      (sampleOpts false)).out =
        .ok (some set, some (.withMessage
          "couldn't list launch templates for \"123\" in \"us-east-1\"" (.base "throttled")))) ∧
    (GoError.withMessage "couldn't list launch templates for \"123\" in \"us-east-1\""
      (.base "throttled")).Error =
      "couldn't list launch templates for \"123\" in \"us-east-1\": throttled" :=
  ⟨by decide, (ListAll_error_iff_listing_fails (τ := List ec2Tag) sampleClock sampleQuote
    failingListing (sampleOpts false)).2.2 (by decide), by decide⟩

/-- C10 on a listing whose only template has a nil `CreateTime` and no tags. -/
theorem no_nil_dereference_when_ids_and_names_present_witness :
    nilTimeListing.wellFormed ∧
    (MarkAndSweep sampleMark (fun ts => ts) sampleDelete nilTimeListing 0
      (sampleOpts false) 0).out = .ok none ∧
    (MarkAndSweep sampleMark (fun ts => ts) sampleDelete nilNameListing 0
      (sampleOpts false) 0).out = .error .nilDereference ∧
    (ListAll (τ := List ec2Tag) sampleClock sampleQuote nilNameListing (sampleOpts false)).out =
      .error .nilDereference :=
  have h := no_nil_dereference_when_ids_and_names_present sampleMark (fun ts => ts) sampleDelete
    sampleClock sampleQuote nilTimeListing 0 (sampleOpts false) 0 (by decide)
  ⟨by decide, h.1.1, h.2.2.1, h.2.2.2⟩

end Runs

end resources
